import Mathlib

/-!
# CHIP-8 interpreter (`src/main.c`): shallow embedding and verified properties

The C program keeps the whole machine in global variables.  Here the globals
are the fields of one record, `Machine`, and every C function that touches
them is a function from `Machine` to `Machine`.

* C arrays are functions from an index (`Nat`) to the element; only indices
  below the declared array size are ever read or written by the embedded
  code.  An access whose index lies outside the declared array (undefined
  behaviour in C) is a `Fault.out_of_bounds` result.
* `exit(1)` after a diagnostic is a `Fault` result as well.
* `unsigned char` and `unsigned short` values are natural numbers; every
  arithmetic write is reduced `% 256` or `% 65536` as the C conversion does.
  `TypeOK` states that a machine state holds values of the declared C types.
* Calls into SDL (`show_display`) and the `printf` diagnostics do not touch
  the machine state and are left out.
* `rand()` is a stream of values consumed in order.
-/

namespace Chip8

/-! ## Constants (`main.c` lines 17-107) -/

abbrev DISPLAY_WIDTH : Nat := 64
abbrev DISPLAY_HEIGHT : Nat := 32
abbrev MEMORY_SIZE : Nat := 4096
abbrev PROGRAM_START_OFFSET : Nat := 512
abbrev MAX_STACK_SIZE : Nat := 16
abbrev FONT_START_OFFSET : Nat := 0
abbrev FONT_HEIGHT : Nat := 5

/-- The built-in hexadecimal glyphs, five bytes each (`FONT`, lines 90-107). -/
def FONT : List Nat :=
  [0xF0, 0x90, 0x90, 0x90, 0xF0,
   0x20, 0x60, 0x20, 0x20, 0x70,
   0xF0, 0x10, 0xF0, 0x80, 0xF0,
   0xF0, 0x10, 0xF0, 0x10, 0xF0,
   0x90, 0x90, 0xF0, 0x10, 0x10,
   0xF0, 0x80, 0xF0, 0x10, 0xF0,
   0xF0, 0x80, 0xF0, 0x90, 0xF0,
   0xF0, 0x10, 0x20, 0x40, 0x40,
   0xF0, 0x90, 0xF0, 0x90, 0xF0,
   0xF0, 0x90, 0xF0, 0x10, 0xF0,
   0xF0, 0x90, 0xF0, 0x90, 0x90,
   0xE0, 0x90, 0xE0, 0x90, 0xE0,
   0xF0, 0x80, 0x80, 0x80, 0xF0,
   0xE0, 0x90, 0x90, 0x90, 0xE0,
   0xF0, 0x80, 0xF0, 0x80, 0xF0,
   0xF0, 0x80, 0xF0, 0x80, 0x80]

/-! ## Machine state -/

/-- Ways in which the C program stops or leaves defined behaviour. -/
inductive Fault where
  | stack_overflow
  | stack_empty
  | out_of_bounds
  deriving DecidableEq, Repr

/-- The global variables of `main.c` that make up the virtual machine. -/
structure Machine where
  /-- Pixel grid `display[row][col]`, 32 rows of 64 columns. -/
  display : Nat → Nat → Bool
  /-- The array `memory[MEMORY_SIZE]`. -/
  memory : Nat → Nat
  /-- The array `stack[MAX_STACK_SIZE]`. -/
  stack : Nat → Nat
  top_of_stack : Nat
  /-- The array `registers[16]`. -/
  registers : Nat → Nat
  program_counter : Nat
  index_register : Nat
  delay_timer : Nat
  sound_timer : Nat
  /-- The array `keypad_state[16]`. -/
  keypad_state : Nat → Bool
  modern_flag : Bool
  /-- Values that successive calls of `rand()` return. -/
  rand_values : Nat → Nat
  /-- Number of calls of `rand()` made so far. -/
  rand_calls : Nat

/-- Every field holds a value of its C type. -/
structure TypeOK (s : Machine) : Prop where
  memory_byte : ∀ a, s.memory a < 256
  stack_short : ∀ i, s.stack i < 65536
  top_byte : s.top_of_stack < 256
  register_byte : ∀ i, s.registers i < 256
  pc_short : s.program_counter < 65536
  index_short : s.index_register < 65536
  delay_byte : s.delay_timer < 256
  sound_byte : s.sound_timer < 256

/-- Assignment `display[row][col] = v`. -/
def set_pixel (d : Nat → Nat → Bool) (row col : Nat) (v : Bool) : Nat → Nat → Bool :=
  Function.update d row (Function.update (d row) col v)

/-- Assignment `registers[i] = v`. -/
def set_register (s : Machine) (i v : Nat) : Machine :=
  { s with registers := Function.update s.registers i v }

/-! ## Call stack (lines 114-134) -/

/-- `push_stack(data)`. -/
def push_stack (s : Machine) (data : Nat) : Except Fault Machine :=
  if s.top_of_stack = MAX_STACK_SIZE then .error .stack_overflow
  else if s.top_of_stack < MAX_STACK_SIZE then
    .ok { s with stack := Function.update s.stack s.top_of_stack data,
                 top_of_stack := (s.top_of_stack + 1) % 256 }
  else .error .out_of_bounds

/-- `pop_stack()`: the popped value and the state after the call. -/
def pop_stack (s : Machine) : Except Fault (Nat × Machine) :=
  if s.top_of_stack = 0 then .error .stack_empty
  else if s.top_of_stack - 1 < MAX_STACK_SIZE then
    .ok (s.stack (s.top_of_stack - 1), { s with top_of_stack := s.top_of_stack - 1 })
  else .error .out_of_bounds

/-! ## Loading and reset (lines 146-226) -/

/-- `load_file`, with `image` the contents of the opened file:
    `fread(memory+PROGRAM_START_OFFSET, sizeof(memory), 1, ptr)` copies up to
    `sizeof(memory)` bytes of the file to `memory[512...]`; the bytes of a file
    shorter than that are stored as read.  A copy that runs past the end of
    `memory` is `Fault.out_of_bounds`. -/
def load_file (s : Machine) (image : List Nat) : Except Fault Machine :=
  let count := min image.length MEMORY_SIZE
  if PROGRAM_START_OFFSET + count ≤ MEMORY_SIZE then
    .ok { s with memory := fun a =>
            if PROGRAM_START_OFFSET ≤ a ∧ a < PROGRAM_START_OFFSET + count
            then image.getD (a - PROGRAM_START_OFFSET) 0 else s.memory a }
  else .error .out_of_bounds

/-- `load_font`. -/
def load_font (s : Machine) : Machine :=
  { s with memory := fun a => if a < FONT.length then FONT.getD a 0 else s.memory a }

/-- `clear_display`. -/
def clear_display (s : Machine) : Machine :=
  { s with display := fun row col =>
      if row < DISPLAY_HEIGHT ∧ col < DISPLAY_WIDTH then false else s.display row col }

/-- `reset`, with `image` the contents of the file that `open_file` opens. -/
def reset (s : Machine) (image : List Nat) : Except Fault Machine :=
  let s1 := { s with memory := fun a => if a < MEMORY_SIZE then 0 else s.memory a }
  let s2 := clear_display s1
  let s3 := { s2 with keypad_state := fun i => if i < 16 then false else s2.keypad_state i }
  let s4 := { s3 with stack := fun i => if i < MAX_STACK_SIZE then 0 else s3.stack i,
                      top_of_stack := 0 }
  let s5 := { s4 with registers := fun i => if i < 16 then 0 else s4.registers i }
  let s6 := { s5 with program_counter := PROGRAM_START_OFFSET, index_register := 0 }
  let s7 := { s6 with delay_timer := 0, sound_timer := 0 }
  match load_file s7 image with
  | .error e => .error e
  | .ok s8 => .ok (load_font s8)

/-! ## Sprite drawing (lines 271-299) -/

/-- Body of the inner loop of `draw_sprite` for bit `j` of a sprite row
    (lines 290-296). -/
def draw_sprite_bit (x row sprite_row j : Nat) (s : Machine) : Machine :=
  let bit := (sprite_row >>> (8 - j - 1)) &&& 1
  let s1 := if bit ≠ 0 ∧ s.display row (x + j) = true then set_register s 0xF 1 else s
  let pixel := xor (s1.display row (x + j)) (decide (bit ≠ 0))
  { s1 with display := set_pixel s1.display row (x + j) pixel }

/-- Inner loop of `draw_sprite` over the bits of one sprite row: the
    iterations `j`, `j+1`, ... with `k` iterations left. -/
def draw_sprite_cols (x row sprite_row : Nat) : Nat → Nat → Machine → Machine
  | _, 0, s => s
  | j, k + 1, s =>
    if x + j ≥ DISPLAY_WIDTH then s
    else draw_sprite_cols x row sprite_row (j + 1) k (draw_sprite_bit x row sprite_row j s)

/-- Outer loop of `draw_sprite` over the sprite rows: the iterations `i`,
    `i+1`, ... with `k` iterations left. -/
def draw_sprite_rows (x y : Nat) : Nat → Nat → Machine → Except Fault Machine
  | _, 0, s => .ok s
  | i, k + 1, s =>
    if y + i ≥ DISPLAY_HEIGHT then .ok s
    else if s.index_register + i < MEMORY_SIZE then
      let sprite_row := s.memory (s.index_register + i)
      draw_sprite_rows x y (i + 1) k (draw_sprite_cols x (y + i) sprite_row 0 8 s)
    else .error .out_of_bounds

/-- `draw_sprite(x, y, n)`. -/
def draw_sprite (s : Machine) (x y n : Nat) : Except Fault Machine :=
  draw_sprite_rows x y 0 n (set_register s 0xF 0)

/-! ## Instruction execution (lines 320-631) -/

/-- The key scan of `FX0A` (lines 566-576): the first pressed key among
    `key`, `key+1`, ... with `k` iterations left. -/
def first_pressed_key (keypad : Nat → Bool) : Nat → Nat → Option Nat
  | _, 0 => none
  | key, k + 1 => if keypad key = true then some key else first_pressed_key keypad (key + 1) k

/-- The loop of `FX55` (lines 599-606): iterations `i`, `i+1`, ... with `k` left. -/
def store_memory : Nat → Nat → Machine → Except Fault Machine
  | _, 0, s => .ok s
  | i, k + 1, s =>
    if s.modern_flag = true then
      if s.index_register + i < MEMORY_SIZE then
        store_memory (i + 1) k
          { s with memory := Function.update s.memory (s.index_register + i) (s.registers i) }
      else .error .out_of_bounds
    else
      if s.index_register < MEMORY_SIZE then
        store_memory (i + 1) k
          { s with memory := Function.update s.memory s.index_register (s.registers i),
                   index_register := (s.index_register + 1) % 65536 }
      else .error .out_of_bounds

/-- The loop of `FX65` (lines 611-618): iterations `i`, `i+1`, ... with `k` left. -/
def load_memory : Nat → Nat → Machine → Except Fault Machine
  | _, 0, s => .ok s
  | i, k + 1, s =>
    if s.modern_flag = true then
      if s.index_register + i < MEMORY_SIZE then
        load_memory (i + 1) k
          { s with registers := Function.update s.registers i (s.memory (s.index_register + i)) }
      else .error .out_of_bounds
    else
      if s.index_register < MEMORY_SIZE then
        load_memory (i + 1) k
          { s with registers := Function.update s.registers i (s.memory s.index_register),
                   index_register := (s.index_register + 1) % 65536 }
      else .error .out_of_bounds

/-- Case `0x0` of the outer switch (lines 348-368). -/
def case_0x0 (s : Machine) (nibble2 nibble3 nibble4 : Nat) : Except Fault Machine :=
  if nibble2 = 0x0 ∧ nibble3 = 0xE then
    if nibble4 = 0x0 then .ok (clear_display s)
    else if nibble4 = 0xE then
      match pop_stack s with
      | .error e => .error e
      | .ok (address, s1) => .ok { s1 with program_counter := address }
    else .ok s
  else .ok s

/-- Case `0x8` of the outer switch (lines 407-480). -/
def case_0x8 (s : Machine) (nibble2 nibble3 nibble4 : Nat) : Except Fault Machine :=
  if nibble4 = 0x0 then
    .ok (set_register s nibble2 (s.registers nibble3))
  else if nibble4 = 0x1 then
    .ok (set_register s nibble2 (s.registers nibble2 ||| s.registers nibble3))
  else if nibble4 = 0x2 then
    .ok (set_register s nibble2 (s.registers nibble2 &&& s.registers nibble3))
  else if nibble4 = 0x3 then
    .ok (set_register s nibble2 (s.registers nibble2 ^^^ s.registers nibble3))
  else if nibble4 = 0x4 then
    let s1 := if (s.registers nibble2 : Int) > 255 - (s.registers nibble3 : Int)
      then set_register s 0xF 1 else set_register s 0xF 0
    .ok (set_register s1 nibble2 ((s1.registers nibble2 + s1.registers nibble3) % 256))
  else if nibble4 = 0x5 then
    let s1 := if s.registers nibble2 ≥ s.registers nibble3
      then set_register s 0xF 1 else set_register s 0xF 0
    .ok (set_register s1 nibble2
          (((s1.registers nibble2 : Int) - (s1.registers nibble3 : Int)) % 256).toNat)
  else if nibble4 = 0x6 then
    let s1 := if s.modern_flag = false
      then set_register s nibble2 (s.registers nibble3) else s
    let s2 := set_register s1 0xF (s1.registers nibble2 &&& 1)
    .ok (set_register s2 nibble2 (s2.registers nibble2 >>> 1))
  else if nibble4 = 0x7 then
    let s1 := if s.registers nibble3 ≥ s.registers nibble2
      then set_register s 0xF 1 else set_register s 0xF 0
    .ok (set_register s1 nibble2
          (((s1.registers nibble3 : Int) - (s1.registers nibble2 : Int)) % 256).toNat)
  else if nibble4 = 0xE then
    let s1 := if s.modern_flag = false
      then set_register s nibble2 (s.registers nibble3) else s
    let s2 := set_register s1 0xF ((s1.registers nibble2 >>> 7) &&& 1)
    .ok (set_register s2 nibble2 ((s2.registers nibble2 <<< 1) % 256))
  else .ok s

/-- Case `0xE` of the outer switch (lines 517-531). -/
def case_0xE (s : Machine) (instruction_byte2 nibble2 : Nat) : Except Fault Machine :=
  if instruction_byte2 = 0x9E then
    if s.registers nibble2 < 16 then
      if s.keypad_state (s.registers nibble2) = true
      then .ok { s with program_counter := (s.program_counter + 2) % 65536 } else .ok s
    else .error .out_of_bounds
  else if instruction_byte2 = 0xA1 then
    if s.registers nibble2 < 16 then
      if s.keypad_state (s.registers nibble2) = false
      then .ok { s with program_counter := (s.program_counter + 2) % 65536 } else .ok s
    else .error .out_of_bounds
  else .ok s

/-- Case `0xF` of the outer switch (lines 532-623). -/
def case_0xF (s : Machine) (instruction_byte2 nibble2 : Nat) : Except Fault Machine :=
  if instruction_byte2 = 0x07 then
    .ok (set_register s nibble2 s.delay_timer)
  else if instruction_byte2 = 0x15 then
    .ok { s with delay_timer := s.registers nibble2 }
  else if instruction_byte2 = 0x18 then
    .ok { s with sound_timer := s.registers nibble2 }
  else if instruction_byte2 = 0x1E then
    let s1 := if s.modern_flag = true ∧
        (s.index_register : Int) > 0x1000 - (s.registers nibble2 : Int)
      then set_register s 0xF 1 else s
    .ok { s1 with index_register := (s1.index_register + s1.registers nibble2) % 65536 }
  else if instruction_byte2 = 0x0A then
    match first_pressed_key s.keypad_state 0 16 with
    | some key => .ok (set_register s nibble2 key)
    | none => .ok { s with program_counter := (s.program_counter + 65536 - 2) % 65536 }
  else if instruction_byte2 = 0x29 then
    .ok { s with index_register :=
            (s.registers nibble2 &&& 0xF) * FONT_HEIGHT + FONT_START_OFFSET }
  else if instruction_byte2 = 0x33 then
    let value := s.registers nibble2
    if s.index_register + 2 < MEMORY_SIZE then
      let m1 := Function.update s.memory s.index_register (value / 100)
      let m2 := Function.update m1 (s.index_register + 1) ((value / 10) % 10)
      let m3 := Function.update m2 (s.index_register + 2) (value % 10)
      .ok { s with memory := m3 }
    else .error .out_of_bounds
  else if instruction_byte2 = 0x55 then
    store_memory 0 (nibble2 + 1) s
  else if instruction_byte2 = 0x65 then
    load_memory 0 (nibble2 + 1) s
  else .ok s

/-- The outer `switch (nibble1)` of `process_instruction` (lines 347-627),
    entered after `program_counter += 2`. -/
def execute (s : Machine) (instruction_byte2 nibble1 nibble2 nibble3 nibble4 nnn : Nat) :
    Except Fault Machine :=
  if nibble1 = 0x0 then case_0x0 s nibble2 nibble3 nibble4
  else if nibble1 = 0x1 then .ok { s with program_counter := nnn }
  else if nibble1 = 0x2 then
    match push_stack s s.program_counter with
    | .error e => .error e
    | .ok s1 => .ok { s1 with program_counter := nnn }
  else if nibble1 = 0x3 then
    if s.registers nibble2 = instruction_byte2
    then .ok { s with program_counter := (s.program_counter + 2) % 65536 } else .ok s
  else if nibble1 = 0x4 then
    if s.registers nibble2 ≠ instruction_byte2
    then .ok { s with program_counter := (s.program_counter + 2) % 65536 } else .ok s
  else if nibble1 = 0x5 then
    if s.registers nibble2 = s.registers nibble3
    then .ok { s with program_counter := (s.program_counter + 2) % 65536 } else .ok s
  else if nibble1 = 0x6 then .ok (set_register s nibble2 instruction_byte2)
  else if nibble1 = 0x7 then
    .ok (set_register s nibble2 ((s.registers nibble2 + instruction_byte2) % 256))
  else if nibble1 = 0x8 then case_0x8 s nibble2 nibble3 nibble4
  else if nibble1 = 0x9 then
    if s.registers nibble2 ≠ s.registers nibble3
    then .ok { s with program_counter := (s.program_counter + 2) % 65536 } else .ok s
  else if nibble1 = 0xA then .ok { s with index_register := nnn }
  else if nibble1 = 0xB then
    if s.modern_flag = false
    then .ok { s with program_counter := (nnn + s.registers 0) % 65536 }
    else .ok { s with program_counter := (nnn + s.registers nibble2) % 65536 }
  else if nibble1 = 0xC then
    .ok { set_register s nibble2 (s.rand_values s.rand_calls &&& instruction_byte2) with
          rand_calls := s.rand_calls + 1 }
  else if nibble1 = 0xD then
    let x_coord := s.registers nibble2 &&& (DISPLAY_WIDTH - 1)
    let y_coord := s.registers nibble3 &&& (DISPLAY_HEIGHT - 1)
    let n_height := nibble4
    draw_sprite s x_coord y_coord n_height
  else if nibble1 = 0xE then case_0xE s instruction_byte2 nibble2
  else if nibble1 = 0xF then case_0xF s instruction_byte2 nibble2
  else .ok s

/-- `process_instruction`: fetch, decode, `program_counter += 2`, execute. -/
def process_instruction (s : Machine) : Except Fault Machine :=
  if s.program_counter + 1 < MEMORY_SIZE then
    let instruction_byte1 := s.memory s.program_counter
    let instruction_byte2 := s.memory (s.program_counter + 1)
    let nibble1 := instruction_byte1 >>> 4
    let nibble2 := instruction_byte1 &&& 0xF
    let nibble3 := instruction_byte2 >>> 4
    let nibble4 := instruction_byte2 &&& 0xF
    let nnn := ((nibble2 <<< 8) + instruction_byte2) % 65536
    execute { s with program_counter := (s.program_counter + 2) % 65536 }
      instruction_byte2 nibble1 nibble2 nibble3 nibble4 nnn
  else .error .out_of_bounds

/-- `k` successive calls of `process_instruction`, stopping at the first fault. -/
def run_steps : Nat → Machine → Except Fault Machine
  | 0, s => .ok s
  | k + 1, s =>
    match process_instruction s with
    | .error e => .error e
    | .ok s1 => run_steps k s1

/-! ## Timers (lines 735-741) -/

/-- The timer decrement of one 60 Hz tick in `run` (lines 739-740). -/
def timer_tick (s : Machine) : Machine :=
  let s1 := if s.delay_timer > 0 then { s with delay_timer := s.delay_timer - 1 } else s
  if s1.sound_timer > 0 then { s1 with sound_timer := s1.sound_timer - 1 } else s1

/-- `k` successive timer ticks. -/
def timer_ticks : Nat → Machine → Machine
  | 0, s => s
  | k + 1, s => timer_ticks k (timer_tick s)

/-! ## Specification vocabulary and concrete states -/

/-- The next instruction of `s` lies inside `memory` and is the word with the
    nibbles `n1 n2 n3 n4`. -/
def next_instruction (s : Machine) (n1 n2 n3 n4 : Nat) : Prop :=
  s.program_counter + 1 < MEMORY_SIZE ∧
  s.memory s.program_counter = 16 * n1 + n2 ∧
  s.memory (s.program_counter + 1) = 16 * n3 + n4

instance (s : Machine) (n1 n2 n3 n4 : Nat) : Decidable (next_instruction s n1 n2 n3 n4) := by
  unfold next_instruction; infer_instance

/-- The state of the globals at program start, before `reset`: zeroed arrays,
    `program_counter = PROGRAM_START_OFFSET`, `modern_flag = true`. -/
def power_on : Machine :=
  { display := fun _ _ => false, memory := fun _ => 0, stack := fun _ => 0,
    top_of_stack := 0, registers := fun _ => 0,
    program_counter := PROGRAM_START_OFFSET, index_register := 0,
    delay_timer := 0, sound_timer := 0, keypad_state := fun _ => false,
    modern_flag := true, rand_values := fun _ => 0, rand_calls := 0 }

/-- The state `s` with `bytes` stored in memory from address `addr` on. -/
def with_bytes (s : Machine) (addr : Nat) (bytes : List Nat) : Machine :=
  { s with memory := fun a =>
      if addr ≤ a ∧ a < addr + bytes.length then bytes.getD (a - addr) 0 else s.memory a }

/-- `8 0 F 4` at 512 with `V0 = 5` and `VF = 7`. -/
def add_vf_state : Machine :=
  set_register (set_register (with_bytes power_on 512 [0x80, 0xF4]) 0 5) 0xF 7

/-- `8 0 F 5` at 512 with `V0 = 5` and `VF = 7`. -/
def sub_vf_state : Machine :=
  set_register (set_register (with_bytes power_on 512 [0x80, 0xF5]) 0 5) 0xF 7

/-- `8 1 2 4` at 512 with `V1 = 200` and `V2 = 100`. -/
def add_state : Machine :=
  set_register (set_register (with_bytes power_on 512 [0x81, 0x24]) 1 200) 2 100

/-- `8 1 2 5` at 512 with `V1 = 3` and `V2 = 100`. -/
def sub_state : Machine :=
  set_register (set_register (with_bytes power_on 512 [0x81, 0x25]) 1 3) 2 100

/-- Successive `push_stack` calls, one per element of the list, stopping at
    the first fault. -/
def push_all : List Nat → Machine → Except Fault Machine
  | [], s => .ok s
  | d :: ds, s =>
    match push_stack s d with
    | .error e => .error e
    | .ok s1 => push_all ds s1

/-- A stack holding three return addresses. -/
def stack3_state : Machine :=
  { power_on with stack := fun i => if i < 3 then 0x200 + 2 * i else 0, top_of_stack := 3 }

/-- `8 1 2 6` at 512 with `V1 = 6` and `V2 = 9`, legacy mode. -/
def shift_state : Machine :=
  { set_register (set_register (with_bytes power_on 512 [0x81, 0x26]) 1 6) 2 9 with
    modern_flag := false }

/-- `A0 50 F0 33` at 512 with `V0 = 156`. -/
def bcd_state : Machine :=
  set_register (with_bytes power_on 512 [0xA0, 0x50, 0xF0, 0x33]) 0 156

/-- `F3 33` at 512 with `V3 = 207` and `I = 0x300`. -/
def bcd_v3_state : Machine :=
  { set_register (with_bytes power_on 512 [0xF3, 0x33]) 3 207 with index_register := 0x300 }

/-- `F4 0A` at 512, no key pressed. -/
def key_wait_state : Machine := with_bytes power_on 512 [0xF4, 0x0A]

/-- `F4 0A` at 512 with the keys 7 and 9 pressed. -/
def key_down_state : Machine :=
  { with_bytes power_on 512 [0xF4, 0x0A] with keypad_state := fun i => i = 7 || i = 9 }

/-- Bit `j` of a sprite row byte, most significant bit first. -/
def sprite_row_bit (sprite_row j : Nat) : Bool :=
  decide ((sprite_row >>> (8 - j - 1)) &&& 1 ≠ 0)

/-- The pixel `(r, c)` lies under rows `i`, ..., `i+k-1` of an 8-bit wide
    sprite placed at `(x, y)`, inside the 64x32 grid. -/
def in_sprite (x y i k r c : Nat) : Prop :=
  y + i ≤ r ∧ r < y + i + k ∧ r < DISPLAY_HEIGHT ∧ x ≤ c ∧ c < x + 8 ∧ c < DISPLAY_WIDTH

instance (x y i k r c : Nat) : Decidable (in_sprite x y i k r c) := by
  unfold in_sprite; infer_instance

/-- The bit of the sprite at `memory[I...]`, placed at `(x, y)`, that falls on
    the pixel `(r, c)`. -/
def sprite_bit (s : Machine) (x y r c : Nat) : Bool :=
  sprite_row_bit (s.memory (s.index_register + (r - y))) (c - x)

/-- The digit-0 glyph in memory at 0x300 with `I = 0x300`, and two lit pixels. -/
def sprite_state : Machine :=
  { with_bytes power_on 0x300 [0xF0, 0x90, 0x90, 0x90, 0xF0] with
    index_register := 0x300,
    display := fun r c => (r = 30 && c = 60) || (r = 3 && c = 3) }

/-- The digit-0 glyph as the specification writes it: rows 1111, 1001, 1001,
    1001, 1111. -/
def digit0_rows : List (List Bool) :=
  [[true, true, true, true],
   [true, false, false, true],
   [true, false, false, true],
   [true, false, false, true],
   [true, true, true, true]]

/-- Expected pixel `(r, c)` of a display that shows the digit-0 glyph in its
    top-left 4x5 region and nothing else. -/
def digit0_pixel (r c : Nat) : Bool := (digit0_rows.getD r []).getD c false

/-- The four-instruction program `00E0 6000 6100 D015`. -/
def glyph_program : List Nat := [0x00, 0xE0, 0x60, 0x00, 0x61, 0x00, 0xD0, 0x15]

/-- A program image one byte longer than the space from 512 to the end of memory. -/
def oversize_image : List Nat := List.replicate 3585 0xAA

/-- The instruction words whose first nibble is 0, 8, 0xE or 0xF and for
    which the switch of `process_instruction` has no case. -/
def no_case (n1 n2 n3 n4 : Nat) : Prop :=
  (n1 = 0x0 ∧ ¬ (n2 = 0x0 ∧ n3 = 0xE ∧ (n4 = 0x0 ∨ n4 = 0xE))) ∨
  (n1 = 0x8 ∧ (n4 = 0x8 ∨ n4 = 0x9 ∨ n4 = 0xA ∨ n4 = 0xB ∨ n4 = 0xC ∨ n4 = 0xD ∨ n4 = 0xF)) ∨
  (n1 = 0xE ∧ 16 * n3 + n4 ≠ 0x9E ∧ 16 * n3 + n4 ≠ 0xA1) ∨
  (n1 = 0xF ∧ 16 * n3 + n4 ∉ [0x07, 0x0A, 0x15, 0x18, 0x1E, 0x29, 0x33, 0x55, 0x65])

instance (n1 n2 n3 n4 : Nat) : Decidable (no_case n1 n2 n3 n4) := by
  unfold no_case; infer_instance

/-- `5 0 1 1` at 512 with `V0 = V1 = 0`. -/
def skip_5xy1_state : Machine := with_bytes power_on 512 [0x50, 0x11]

/-- `9 0 1 1` at 512 with `V0 = 1` and `V1 = 0`. -/
def skip_9xy1_state : Machine :=
  set_register (with_bytes power_on 512 [0x90, 0x11]) 0 1

/-- `8 3 4 9` at 512 with `V3 = 5` and `V4 = 6`. -/
def no_case_state : Machine :=
  set_register (set_register (with_bytes power_on 512 [0x83, 0x49]) 3 5) 4 6

/-- `8 F 1 n4` at 512 with `VF = vf` and `V1 = v1`, modern mode. -/
def vf_destination_state (n4 vf v1 : Nat) : Machine :=
  set_register (set_register (with_bytes power_on 512 [0x8F, 16 * 1 + n4]) 0xF vf) 1 v1

/-- `F 0 1 E` at 512 with `I = 0xFFF`, `V0 = 1` and `VF = 0`, modern mode. -/
def index_add_state : Machine :=
  { set_register (with_bytes power_on 512 [0xF0, 0x1E]) 0 1 with index_register := 0xFFF }

/-- `F 2 1 E` at 512 with `I = 0xFF0`, `V2 = 0x20` and `VF = 0`, modern mode. -/
def index_add_far_state : Machine :=
  { set_register (with_bytes power_on 512 [0xF2, 0x1E]) 2 0x20 with index_register := 0xFF0 }

/-- `D 1 2 5` at 512 with `V1 = 124`, `V2 = 62`, the digit-0 glyph at 0x300,
    `I = 0x300`, and the pixels (30, 60) and (3, 3) lit. -/
def draw_state : Machine :=
  { set_register (set_register
      (with_bytes (with_bytes power_on 0x300 [0xF0, 0x90, 0x90, 0x90, 0xF0]) 512 [0xD1, 0x25])
      1 124) 2 62 with
    index_register := 0x300,
    display := fun r c => (r = 30 && c = 60) || (r = 3 && c = 3) }

/-- `F2 55 F2 65` at 512 with `V0, V1, V2, V3 = 11, 22, 33, 44` and
    `I = 0x300`, modern mode. -/
def store_state : Machine :=
  { set_register (set_register (set_register (set_register
      (with_bytes power_on 512 [0xF2, 0x55, 0xF2, 0x65]) 0 11) 1 22) 2 33) 3 44 with
    index_register := 0x300 }

/-- The state after one step from `store_state`. -/
def stored_state : Machine :=
  match process_instruction store_state with
  | .ok s1 => s1
  | .error _ => store_state

/-- The state `stored_state` with every register overwritten by 99. -/
def overwritten_state : Machine := { stored_state with registers := fun _ => 99 }

/-! ## Clock scheduler (lines 698-743)

The constants `TIMER_INTERVAL` and `PROCESSING_INTERVAL` are the doubles
`1000.0/60` and `1000.0/700`; the loop compares them with a difference of two
`Uint64` millisecond counts.  No integer lies between either quotient and
its nearest double, so the comparison of an integer with the double has the
truth value of the comparison with the exact quotient, which is what the
definitions below use. -/

/-- `TIMER_INTERVAL = 1000.0/TIMER_FREQ`. -/
def TIMER_INTERVAL : ℚ := 1000 / 60

/-- `PROCESSING_INTERVAL = 1000.0/PROCESSOR_FREQ`. -/
def PROCESSING_INTERVAL : ℚ := 1000 / 700

/-- The variables of `run` and the globals `paused` and `step`, next to the
    machine itself. -/
structure Scheduler where
  machine : Machine
  paused : Bool
  step : Bool
  last_processor : Nat
  last_display : Nat

/-- The `Uint64` difference `now - last`. -/
def ticks_since (now last : Nat) : Nat := (now + 2 ^ 64 - last % 2 ^ 64) % 2 ^ 64

/-- One pass through the body of the main loop after the event loop
    (lines 721-741), with `now` the value `SDL_GetTicks64()` returns. -/
def run_iteration (now : Nat) (st : Scheduler) : Except Fault Scheduler :=
  let processed : Except Fault Scheduler :=
    if (ticks_since now st.last_processor : ℚ) ≥ PROCESSING_INTERVAL then
      let st1 := { st with last_processor := now }
      if st1.paused = false ∨ st1.step = true then
        match process_instruction st1.machine with
        | .error e => .error e
        | .ok m => .ok { st1 with machine := m, step := false }
      else .ok st1
    else .ok st
  match processed with
  | .error e => .error e
  | .ok st2 =>
    if (ticks_since now st2.last_display : ℚ) ≥ TIMER_INTERVAL then
      .ok { st2 with last_display := now, machine := timer_tick st2.machine }
    else .ok st2

/-- Paused with a single step pending, `8124` next, `delay_timer = 5`,
    `sound_timer = 0`, both clocks last fired at 1000 ms. -/
def scheduler_state : Scheduler :=
  { machine := { add_state with delay_timer := 5 }, paused := true, step := true,
    last_processor := 1000, last_display := 1000 }

/-- `2 3 0 0` at 512 and `0 0 E E` at 0x300, with three return addresses on
    the stack. -/
def call_state : Machine :=
  { with_bytes (with_bytes power_on 0x300 [0x00, 0xEE]) 512 [0x23, 0x00] with
    stack := fun i => if i < 3 then 0x200 + 2 * i else 0, top_of_stack := 3 }

/-- `E 0 9 E` at 512 with `V0 = 16`. -/
def key_index_state : Machine :=
  set_register (with_bytes power_on 512 [0xE0, 0x9E]) 0 16

/-- `E 0 A 1` at 512 with `V0 = 200`. -/
def key_index_a1_state : Machine :=
  set_register (with_bytes power_on 512 [0xE0, 0xA1]) 0 200

/-- `E 3 9 E` at 512 with `V3 = 7` and the key 7 pressed. -/
def key_skip_state : Machine :=
  { set_register (with_bytes power_on 512 [0xE3, 0x9E]) 3 7 with
    keypad_state := fun i => decide (i = 7) }

/-! ## Basic facts -/

theorem typeOK_power_on : TypeOK power_on := by
  constructor <;> simp [power_on, PROGRAM_START_OFFSET]

theorem typeOK_set_register (s : Machine) (i v : Nat) (hs : TypeOK s) (hv : v < 256) :
    TypeOK (set_register s i v) := by
  obtain ⟨h1, h2, h3, h4, h5, h6, h7, h8⟩ := hs
  refine ⟨h1, h2, h3, ?_, h5, h6, h7, h8⟩
  intro j
  by_cases hj : j = i
  · subst hj; simpa [set_register] using hv
  · simpa [set_register, Function.update_noteq hj] using h4 j

theorem typeOK_with_bytes (s : Machine) (addr : Nat) (bytes : List Nat) (hs : TypeOK s)
    (hb : ∀ b ∈ bytes, b < 256) : TypeOK (with_bytes s addr bytes) := by
  obtain ⟨h1, h2, h3, h4, h5, h6, h7, h8⟩ := hs
  refine ⟨?_, h2, h3, h4, h5, h6, h7, h8⟩
  intro a
  simp only [with_bytes]
  split
  · rename_i h
    have hlt : a - addr < bytes.length := by omega
    rw [List.getD_eq_getElem _ _ hlt]
    exact hb _ (List.getElem_mem _)
  · exact h1 a

/-- Decoding of a byte built from two nibbles. -/
theorem decode_byte (hi lo : Nat) (hlo : lo < 16) :
    (16 * hi + lo) >>> 4 = hi ∧ (16 * hi + lo) &&& 0xF = lo := by
  constructor
  · rw [Nat.shiftRight_eq_div_pow]; omega
  · have h := Nat.and_pow_two_sub_one_eq_mod (16 * hi + lo) 4
    norm_num at h
    rw [h]; omega

/-- Fetch and decode: with the next instruction `n1 n2 n3 n4` in memory,
    `process_instruction` is the switch entered with the decoded fields and
    `program_counter` advanced by 2. -/
theorem process_instruction_decode (s : Machine) (n1 n2 n3 n4 : Nat)
    (h2 : n2 < 16) (h3 : n3 < 16) (h4 : n4 < 16)
    (h : next_instruction s n1 n2 n3 n4) :
    process_instruction s =
      execute { s with program_counter := s.program_counter + 2 }
        (16 * n3 + n4) n1 n2 n3 n4 (256 * n2 + (16 * n3 + n4)) := by
  obtain ⟨hpc, hb1, hb2⟩ := h
  have hpc2 : (s.program_counter + 2) % 65536 = s.program_counter + 2 :=
    Nat.mod_eq_of_lt (by simp only [MEMORY_SIZE] at hpc; omega)
  have hnnn : ((n2 <<< 8) + (16 * n3 + n4)) % 65536 = 256 * n2 + (16 * n3 + n4) := by
    rw [Nat.shiftLeft_eq]; omega
  simp only [process_instruction, hpc, if_true, hb1, hb2,
    (decode_byte n1 n2 h2).1, (decode_byte n1 n2 h2).2,
    (decode_byte n3 n4 h4).1, (decode_byte n3 n4 h4).2, hpc2, hnnn]

/-! ## 8XY4 and 8XY5 -/

/-- 8XY4 with both operand registers different from VF: VX receives the sum
    modulo 256 and VF the carry. -/
theorem add_8xy4_distinct (s : Machine) (X Y : Nat) (hX : X < 16) (hY : Y < 16)
    (hXF : X ≠ 0xF) (hYF : Y ≠ 0xF) (hs : TypeOK s) (h : next_instruction s 8 X Y 4) :
    ∃ s', process_instruction s = .ok s' ∧
      s'.registers X = (s.registers X + s.registers Y) % 256 ∧
      s'.registers 0xF = (if s.registers X + s.registers Y > 255 then 1 else 0) := by
  rw [process_instruction_decode s 8 X Y 4 hX hY (by norm_num) h]
  have hb := hs.register_byte Y
  have hYF2 : Y ≠ 15 := hYF
  have hXF2 : X ≠ 15 := hXF
  have hFX : (15 : Nat) ≠ X := fun e => hXF e.symm
  by_cases hc : (s.registers X : Int) > 255 - (s.registers Y : Int)
  · have hc2 : s.registers X + s.registers Y > 255 := by omega
    simp [execute, case_0x8, set_register, hc, hc2, Function.update_noteq, hXF2, hYF2, hFX]
  · have hc2 : ¬ s.registers X + s.registers Y > 255 := by omega
    simp [execute, case_0x8, set_register, hc, hc2, Function.update_noteq, hXF2, hYF2, hFX]

theorem add_8xy4_distinct_example :
    ∃ s', process_instruction add_state = .ok s' ∧
      s'.registers 1 = (add_state.registers 1 + add_state.registers 2) % 256 ∧
      s'.registers 0xF =
        (if add_state.registers 1 + add_state.registers 2 > 255 then 1 else 0) :=
  add_8xy4_distinct add_state 1 2 (by decide) (by decide) (by decide) (by decide)
    (typeOK_set_register _ 2 100
      (typeOK_set_register _ 1 200
        (typeOK_with_bytes _ 512 [0x81, 0x24] typeOK_power_on (by decide)) (by decide))
      (by decide))
    (by decide)

/-- C1 (8XY4 add, Y = 0xF): the code writes the carry into VF before it adds,
    so `80F4` with V0 = 5 and VF = 7 leaves V0 = 5 + carry = 5, not
    (5 + 7) mod 256 = 12; VF is the carry 0. -/
theorem c1_add_8xy4_vf_operand :
    next_instruction add_vf_state 8 0 0xF 4 ∧
    add_vf_state.registers 0 = 5 ∧ add_vf_state.registers 0xF = 7 ∧
    ∃ s', process_instruction add_vf_state = .ok s' ∧
      s'.registers 0 = 5 ∧ s'.registers 0 ≠ (5 + 7) % 256 ∧ s'.registers 0xF = 0 := by
  refine ⟨by decide, by decide, by decide, _, rfl, by decide, by decide, by decide⟩

/-- 8XY5 with both operand registers different from VF: VX receives the
    difference modulo 256 and VF the no-borrow flag. -/
theorem sub_8xy5_distinct (s : Machine) (X Y : Nat) (hX : X < 16) (hY : Y < 16)
    (hXF : X ≠ 0xF) (hYF : Y ≠ 0xF) (h : next_instruction s 8 X Y 5) :
    ∃ s', process_instruction s = .ok s' ∧
      (s'.registers X : Int) = ((s.registers X : Int) - (s.registers Y : Int)) % 256 ∧
      s'.registers 0xF = (if s.registers X ≥ s.registers Y then 1 else 0) := by
  rw [process_instruction_decode s 8 X Y 5 hX hY (by norm_num) h]
  have hYF2 : Y ≠ 15 := hYF
  have hXF2 : X ≠ 15 := hXF
  have hFX : (15 : Nat) ≠ X := fun e => hXF e.symm
  have hnn : (0 : Int) ≤ ((s.registers X : Int) - (s.registers Y : Int)) % 256 :=
    Int.emod_nonneg _ (by norm_num)
  by_cases hc : s.registers X ≥ s.registers Y
  · simp [execute, case_0x8, set_register, hc, Function.update_noteq, hXF2, hYF2, hFX,
      Int.toNat_of_nonneg hnn]
  · simp [execute, case_0x8, set_register, hc, Function.update_noteq, hXF2, hYF2, hFX,
      Int.toNat_of_nonneg hnn]

theorem sub_8xy5_distinct_example :
    ∃ s', process_instruction sub_state = .ok s' ∧
      (s'.registers 1 : Int) =
        ((sub_state.registers 1 : Int) - (sub_state.registers 2 : Int)) % 256 ∧
      s'.registers 0xF = (if sub_state.registers 1 ≥ sub_state.registers 2 then 1 else 0) :=
  sub_8xy5_distinct sub_state 1 2 (by decide) (by decide) (by decide) (by decide) (by decide)

/-- C2 (8XY5 subtract, Y = 0xF): the code writes the no-borrow flag into VF
    before it subtracts, so `80F5` with V0 = 5 and VF = 7 leaves
    V0 = 5 - flag = 5, not (5 - 7) mod 256 = 254; VF is the flag 0. -/
theorem c2_sub_8xy5_vf_operand :
    next_instruction sub_vf_state 8 0 0xF 5 ∧
    sub_vf_state.registers 0 = 5 ∧ sub_vf_state.registers 0xF = 7 ∧
    ∃ s', process_instruction sub_vf_state = .ok s' ∧
      s'.registers 0 = 5 ∧ (s'.registers 0 : Int) ≠ ((5 : Int) - 7) % 256 ∧
      s'.registers 0xF = 0 := by
  refine ⟨by decide, by decide, by decide, _, rfl, by decide, by decide, by decide⟩

/-! ## Call stack -/

theorem push_stack_ok (s : Machine) (d : Nat) (h : s.top_of_stack < 16) :
    push_stack s d = .ok { s with stack := Function.update s.stack s.top_of_stack d,
                                  top_of_stack := s.top_of_stack + 1 } := by
  have h1 : s.top_of_stack ≠ 16 := by omega
  have h2 : (s.top_of_stack + 1) % 256 = s.top_of_stack + 1 := by omega
  simp [push_stack, h1, h, h2]

theorem pop_stack_ok (s : Machine) (h0 : s.top_of_stack ≠ 0) (h : s.top_of_stack ≤ 16) :
    pop_stack s = .ok (s.stack (s.top_of_stack - 1),
                       { s with top_of_stack := s.top_of_stack - 1 }) := by
  have h1 : s.top_of_stack - 1 < 16 := by omega
  simp [pop_stack, h0, h1]

theorem push_all_ok (ds : List Nat) : ∀ s : Machine, s.top_of_stack + ds.length ≤ 16 →
    ∃ s', push_all ds s = .ok s' ∧ s'.top_of_stack = s.top_of_stack + ds.length := by
  induction ds with
  | nil => intro s _; exact ⟨s, rfl, rfl⟩
  | cons d ds ih =>
    intro s h
    simp only [List.length_cons] at h
    have hlt : s.top_of_stack < 16 := by omega
    obtain ⟨s', h1, h2⟩ := ih { s with stack := Function.update s.stack s.top_of_stack d,
                                       top_of_stack := s.top_of_stack + 1 }
      (by simp only; omega)
    refine ⟨s', ?_, ?_⟩
    · simp only [push_all, push_stack_ok s d hlt]; exact h1
    · rw [h2]; simp only [List.length_cons]; omega

theorem push_stack_spec (s : Machine) (d : Nat) (h : s.top_of_stack < 16) :
    ∃ s', push_stack s d = .ok s' ∧ s'.top_of_stack = s.top_of_stack + 1 ∧
      s'.stack s.top_of_stack = d ∧ ∀ i, i ≠ s.top_of_stack → s'.stack i = s.stack i := by
  refine ⟨_, push_stack_ok s d h, rfl, ?_, ?_⟩
  · simp
  · intro i hi; simp [Function.update_noteq hi]

theorem pop_stack_spec (s : Machine) (h0 : s.top_of_stack ≠ 0) (h : s.top_of_stack ≤ 16) :
    ∃ s', pop_stack s = .ok (s.stack (s.top_of_stack - 1), s') ∧
      s'.top_of_stack = s.top_of_stack - 1 ∧ s'.stack = s.stack :=
  ⟨_, pop_stack_ok s h0 h, rfl, rfl⟩

/-- C4 (call stack round trip): on a stack with at most 14 entries,
    `push_stack(a); push_stack(b)` followed by two `pop_stack` calls succeeds
    four times, returns `b` and then `a`, and leaves the depth and the entries
    below the top as they were. -/
theorem c4_stack_round_trip (s : Machine) (a b : Nat) (h : s.top_of_stack ≤ 14) :
    ∃ s1 s2 s3 s4, push_stack s a = .ok s1 ∧ push_stack s1 b = .ok s2 ∧
      pop_stack s2 = .ok (b, s3) ∧ pop_stack s3 = .ok (a, s4) ∧
      s4.top_of_stack = s.top_of_stack ∧
      ∀ i, i < s.top_of_stack → s4.stack i = s.stack i := by
  obtain ⟨s1, e1, t1, v1, f1⟩ := push_stack_spec s a (by omega)
  obtain ⟨s2, e2, t2, v2, f2⟩ := push_stack_spec s1 b (by omega)
  obtain ⟨s3, e3, t3, f3⟩ := pop_stack_spec s2 (by omega) (by omega)
  obtain ⟨s4, e4, t4, f4⟩ := pop_stack_spec s3 (by omega) (by omega)
  have k2 : s2.top_of_stack - 1 = s1.top_of_stack := by omega
  have k3 : s3.top_of_stack - 1 = s.top_of_stack := by omega
  have w3 : s3.stack s.top_of_stack = a := by
    rw [f3, f2 _ (by omega), v1]
  refine ⟨s1, s2, s3, s4, e1, e2, ?_, ?_, by omega, ?_⟩
  · rw [e3, k2, v2]
  · rw [e4, k3, w3]
  · intro i hi
    rw [f4, f3, f2 _ (by omega), f1 _ (by omega)]

theorem c4_stack_round_trip_witness :
    stack3_state.top_of_stack ≤ 14 ∧
    ∃ s1 s2 s3 s4, push_stack stack3_state 0x2A0 = .ok s1 ∧ push_stack s1 0x2B0 = .ok s2 ∧
      pop_stack s2 = .ok (0x2B0, s3) ∧ pop_stack s3 = .ok (0x2A0, s4) ∧
      s4.top_of_stack = stack3_state.top_of_stack ∧
      ∀ i, i < stack3_state.top_of_stack → s4.stack i = stack3_state.stack i :=
  ⟨by decide, c4_stack_round_trip stack3_state 0x2A0 0x2B0 (by decide)⟩

/-- C5 (call stack failure conditions): with the depth within the
    capacity, `push_stack` fails exactly when 16 entries are present and then
    with the overflow fault, `pop_stack` fails exactly when the stack is empty
    and then with the empty-stack fault; 16 pushes onto an empty stack all
    succeed and the 17th is the overflow fault. -/
theorem c5_stack_failure_conditions (s : Machine) (d : Nat)
    (h : s.top_of_stack ≤ MAX_STACK_SIZE) :
    ((∃ e, push_stack s d = .error e) ↔ s.top_of_stack = 16) ∧
    (s.top_of_stack = 16 → push_stack s d = .error .stack_overflow) ∧
    ((∃ e, pop_stack s = .error e) ↔ s.top_of_stack = 0) ∧
    (s.top_of_stack = 0 → pop_stack s = .error .stack_empty) ∧
    (s.top_of_stack = 0 → ∀ ds : List Nat, ds.length = 16 →
      ∃ s', push_all ds s = .ok s' ∧ s'.top_of_stack = 16 ∧
        push_stack s' d = .error .stack_overflow) := by
  have hfull : ∀ t : Machine, t.top_of_stack = 16 → push_stack t d = .error .stack_overflow := by
    intro t ht; simp [push_stack, ht]
  have hempty : s.top_of_stack = 0 → pop_stack s = .error .stack_empty := by
    intro ht; simp [pop_stack, ht]
  refine ⟨⟨?_, fun ht => ⟨_, hfull s ht⟩⟩, hfull s, ⟨?_, fun ht => ⟨_, hempty ht⟩⟩, hempty, ?_⟩
  · rintro ⟨e, he⟩
    by_contra hne
    have hlt : s.top_of_stack < 16 := by
      simp only [MAX_STACK_SIZE] at h; omega
    rw [push_stack_ok s d hlt] at he
    cases he
  · rintro ⟨e, he⟩
    by_contra hne
    rw [pop_stack_ok s hne h] at he
    cases he
  · intro ht ds hds
    obtain ⟨s', h1, h2⟩ := push_all_ok ds s (by omega)
    have h16 : s'.top_of_stack = 16 := by omega
    exact ⟨s', h1, h16, hfull s' h16⟩

theorem c5_stack_failure_conditions_witness :
    power_on.top_of_stack ≤ MAX_STACK_SIZE ∧
    (power_on.top_of_stack = 0 → pop_stack power_on = .error .stack_empty) ∧
    (power_on.top_of_stack = 0 → ∀ ds : List Nat, ds.length = 16 →
      ∃ s', push_all ds power_on = .ok s' ∧ s'.top_of_stack = 16 ∧
        push_stack s' 0x300 = .error .stack_overflow) :=
  ⟨by decide, (c5_stack_failure_conditions power_on 0x300 (by decide)).2.2.2.1,
    (c5_stack_failure_conditions power_on 0x300 (by decide)).2.2.2.2⟩

/-! ## 8XY6 -/

/-- C6 (quirk switch on 8XY6): for X other than 0xF, legacy mode leaves
    VX = VY >> 1 and VF = VY & 1; modern mode leaves VX = VX >> 1 and
    VF = VX & 1 whatever VY holds; when VX and VY differ, the step in the
    other mode gives a different VX or a different VF. -/
theorem c6_shift_right_quirk (s : Machine) (X Y : Nat) (hX : X < 16) (hY : Y < 16)
    (hXF : X ≠ 0xF) (h : next_instruction s 8 X Y 6) :
    ∃ s', process_instruction s = .ok s' ∧
      (s.modern_flag = false →
        s'.registers X = s.registers Y >>> 1 ∧ s'.registers 0xF = s.registers Y &&& 1) ∧
      (s.modern_flag = true →
        s'.registers X = s.registers X >>> 1 ∧ s'.registers 0xF = s.registers X &&& 1 ∧
        (Y ≠ X → ∀ c, ∃ t, process_instruction (set_register s Y c) = .ok t ∧
          t.registers X = s'.registers X ∧ t.registers 0xF = s'.registers 0xF)) ∧
      (s.registers X ≠ s.registers Y →
        ∃ t, process_instruction { s with modern_flag := !s.modern_flag } = .ok t ∧
          (t.registers X ≠ s'.registers X ∨ t.registers 0xF ≠ s'.registers 0xF)) := by
  have hXF2 : X ≠ 15 := hXF
  have hFX : (15 : Nat) ≠ X := fun e => hXF e.symm
  have key : ∀ u : Machine, next_instruction u 8 X Y 6 →
      ∃ u', process_instruction u = .ok u' ∧
        u'.registers X = (if u.modern_flag = false then u.registers Y else u.registers X) >>> 1 ∧
        u'.registers 0xF =
          (if u.modern_flag = false then u.registers Y else u.registers X) &&& 1 := by
    intro u hu
    rw [process_instruction_decode u 8 X Y 6 hX hY (by norm_num) hu]
    cases hm : u.modern_flag <;>
      simp [execute, case_0x8, set_register, hm, Function.update_noteq, hXF2, hFX]
  obtain ⟨s', e, vx, vf⟩ := key s h
  refine ⟨s', e, ?_, ?_, ?_⟩
  · intro hm; simpa [hm] using And.intro vx vf
  · intro hm
    refine ⟨by simpa [hm] using vx, by simpa [hm] using vf, ?_⟩
    intro hYX c
    have hXY : X ≠ Y := fun e => hYX e.symm
    have hn : next_instruction (set_register s Y c) 8 X Y 6 := h
    obtain ⟨t, et, tx, tf⟩ := key _ hn
    refine ⟨t, et, ?_, ?_⟩
    · rw [tx, vx]; simp [set_register, hm, Function.update_noteq hXY]
    · rw [tf, vf]; simp [set_register, hm, Function.update_noteq hXY]
  · intro hne
    have hn : next_instruction { s with modern_flag := !s.modern_flag } 8 X Y 6 := h
    obtain ⟨t, et, tx, tf⟩ := key _ hn
    refine ⟨t, et, ?_⟩
    rw [tx, tf, vx, vf]
    simp only [Nat.shiftRight_eq_div_pow, Nat.and_one_is_mod]
    cases hm : s.modern_flag <;> simp <;> omega

theorem c6_shift_right_quirk_witness :
    next_instruction shift_state 8 1 2 6 ∧
    ∃ s', process_instruction shift_state = .ok s' ∧
      (shift_state.modern_flag = false →
        s'.registers 1 = shift_state.registers 2 >>> 1 ∧
        s'.registers 0xF = shift_state.registers 2 &&& 1) ∧
      (shift_state.registers 1 ≠ shift_state.registers 2 →
        ∃ t, process_instruction { shift_state with modern_flag := !shift_state.modern_flag }
            = .ok t ∧
          (t.registers 1 ≠ s'.registers 1 ∨ t.registers 0xF ≠ s'.registers 0xF)) := by
  obtain ⟨s', e, hl, _, hd⟩ :=
    c6_shift_right_quirk shift_state 1 2 (by decide) (by decide) (by decide) (by decide)
  exact ⟨by decide, s', e, hl, hd⟩

/-! ## Timers -/

theorem timer_tick_delay (s : Machine) : (timer_tick s).delay_timer = s.delay_timer - 1 := by
  unfold timer_tick
  by_cases h1 : s.delay_timer > 0 <;> by_cases h2 : s.sound_timer > 0 <;>
    simp [h1, h2] <;> omega

theorem timer_tick_sound (s : Machine) : (timer_tick s).sound_timer = s.sound_timer - 1 := by
  unfold timer_tick
  by_cases h1 : s.delay_timer > 0 <;> by_cases h2 : s.sound_timer > 0 <;>
    simp [h1, h2] <;> omega

theorem timer_ticks_values (k : Nat) : ∀ s : Machine,
    (timer_ticks k s).delay_timer = s.delay_timer - k ∧
    (timer_ticks k s).sound_timer = s.sound_timer - k := by
  induction k with
  | zero => intro s; exact ⟨rfl, rfl⟩
  | succ k ih =>
    intro s
    obtain ⟨h1, h2⟩ := ih (timer_tick s)
    simp only [timer_ticks]
    rw [h1, h2, timer_tick_delay, timer_tick_sound]
    omega

/-- C7 (timer decrement floor): one tick takes each timer from d to d - 1
    when d > 0 and keeps it at 0 otherwise, independently of the other timer;
    after k ticks each timer equals max (d - k) 0, never above its start
    value; from 1 a timer is 0 after one tick and 0 after two. -/
theorem c7_timer_floor (s : Machine) (k : Nat) :
    (timer_tick s).delay_timer = (if s.delay_timer > 0 then s.delay_timer - 1 else 0) ∧
    (timer_tick s).sound_timer = (if s.sound_timer > 0 then s.sound_timer - 1 else 0) ∧
    ((timer_ticks k s).delay_timer : Int) = max ((s.delay_timer : Int) - k) 0 ∧
    ((timer_ticks k s).sound_timer : Int) = max ((s.sound_timer : Int) - k) 0 ∧
    (timer_ticks k s).delay_timer ≤ s.delay_timer ∧
    (timer_ticks k s).sound_timer ≤ s.sound_timer ∧
    (timer_ticks 1 { s with delay_timer := 1 }).delay_timer = 0 ∧
    (timer_ticks 2 { s with delay_timer := 1 }).delay_timer = 0 := by
  obtain ⟨h1, h2⟩ := timer_ticks_values k s
  refine ⟨?_, ?_, ?_, ?_, ?_, ?_, ?_, ?_⟩
  · rw [timer_tick_delay]; split <;> omega
  · rw [timer_tick_sound]; split <;> omega
  · rw [h1]; omega
  · rw [h2]; omega
  · rw [h1]; omega
  · rw [h2]; omega
  · exact (timer_ticks_values 1 _).1
  · exact (timer_ticks_values 2 _).1

/-! ## FX33 -/

/-- The step FX33 when I + 2 lies inside memory. -/
theorem fx33_step (s : Machine) (X : Nat) (hX : X < 16)
    (hI : s.index_register + 2 < 4096) (h : next_instruction s 0xF X 3 3) :
    process_instruction s = .ok
      { s with program_counter := s.program_counter + 2,
               memory := Function.update
                 (Function.update
                   (Function.update s.memory s.index_register (s.registers X / 100))
                   (s.index_register + 1) (s.registers X / 10 % 10))
                 (s.index_register + 2) (s.registers X % 10) } := by
  rw [process_instruction_decode s 0xF X 3 3 hX (by norm_num) (by norm_num) h]
  simp [execute, case_0xF, hI]

/-- C9 (FX33 binary-coded decimal): with I + 2 inside memory, FX33 stores
    at I, I+1, I+2 the hundreds, tens and ones digit of VX (at most 2, 9 and
    9, recombining to VX), leaves every other memory byte, every register and
    I unchanged; and `A050` followed by `F033` with V0 = 156 leaves 1, 5, 6 at
    0x50, 0x51, 0x52. -/
theorem c9_bcd (s : Machine) (X : Nat) (hX : X < 16) (hs : TypeOK s)
    (hI : s.index_register + 2 ≤ 4095) (h : next_instruction s 0xF X 3 3) :
    (∃ s', process_instruction s = .ok s' ∧
      s'.memory s.index_register * 100 + s'.memory (s.index_register + 1) * 10 +
        s'.memory (s.index_register + 2) = s.registers X ∧
      s'.memory s.index_register ≤ 2 ∧ s'.memory (s.index_register + 1) ≤ 9 ∧
      s'.memory (s.index_register + 2) ≤ 9 ∧
      (∀ a, a ≠ s.index_register → a ≠ s.index_register + 1 → a ≠ s.index_register + 2 →
        s'.memory a = s.memory a) ∧
      s'.registers = s.registers ∧ s'.index_register = s.index_register) ∧
    (∀ t : Machine, next_instruction t 0xA 0 5 0 →
      t.memory (t.program_counter + 2) = 0xF0 → t.memory (t.program_counter + 3) = 0x33 →
      t.program_counter + 3 < MEMORY_SIZE → t.registers 0 = 156 →
      ∃ t', run_steps 2 t = .ok t' ∧
        t'.memory 0x50 = 1 ∧ t'.memory 0x51 = 5 ∧ t'.memory 0x52 = 6) := by
  constructor
  · have hv := hs.register_byte X
    have n1 : s.index_register ≠ s.index_register + 1 := by omega
    have n2 : s.index_register ≠ s.index_register + 2 := by omega
    have n3 : s.index_register + 1 ≠ s.index_register + 2 := by omega
    refine ⟨_, fx33_step s X hX (by omega) h, ?_, ?_, ?_, ?_, ?_, rfl, rfl⟩
    · simp only [Function.update_same, Function.update_noteq n1, Function.update_noteq n2,
        Function.update_noteq n3]
      omega
    · simp only [Function.update_same, Function.update_noteq n1, Function.update_noteq n2]
      omega
    · simp only [Function.update_same, Function.update_noteq n3]
      omega
    · simp only [Function.update_same]
      omega
    · intro a h1 h2 h3
      simp only [Function.update_noteq h1, Function.update_noteq h2, Function.update_noteq h3]
  · intro t ht hb3 hb4 hpc hv
    have e1 := process_instruction_decode t 0xA 0 5 0 (by norm_num) (by norm_num)
      (by norm_num) ht
    have ht2 : next_instruction
        { t with program_counter := t.program_counter + 2, index_register := 0x50 }
        0xF 0 3 3 := ⟨by simpa using hpc, hb3, hb4⟩
    have e2 := process_instruction_decode _ 0xF 0 3 3 (by norm_num) (by norm_num)
      (by norm_num) ht2
    simp only [execute, case_0xF, MEMORY_SIZE] at e1 e2
    norm_num at e1 e2
    simp only [run_steps, e1, e2, hv]
    refine ⟨_, rfl, ?_, ?_, ?_⟩ <;> simp [Function.update_apply]

theorem c9_bcd_witness :
    TypeOK bcd_v3_state ∧ bcd_v3_state.index_register + 2 ≤ 4095 ∧
    next_instruction bcd_v3_state 0xF 3 3 3 ∧
    (∃ s', process_instruction bcd_v3_state = .ok s' ∧
      s'.memory 0x300 = 2 ∧ s'.memory 0x301 = 0 ∧ s'.memory 0x302 = 7) ∧
    (∃ t', run_steps 2 bcd_state = .ok t' ∧
        t'.memory 0x50 = 1 ∧ t'.memory 0x51 = 5 ∧ t'.memory 0x52 = 6) := by
  have h0 := typeOK_set_register _ 3 207
    (typeOK_with_bytes _ 512 [0xF3, 0x33] typeOK_power_on (by decide)) (by decide)
  have hs : TypeOK bcd_v3_state :=
    ⟨h0.memory_byte, h0.stack_short, h0.top_byte, h0.register_byte, h0.pc_short,
      by decide, h0.delay_byte, h0.sound_byte⟩
  have h := c9_bcd bcd_v3_state 3 (by decide) hs (by decide) (by decide)
  refine ⟨hs, by decide, by decide, ⟨_, rfl, by decide, by decide, by decide⟩, ?_⟩
  exact h.2 bcd_state (by decide) (by decide) (by decide) (by decide) (by decide)

/-! ## FX0A -/

theorem first_pressed_key_none (keypad : Nat → Bool) (k : Nat) : ∀ key : Nat,
    (∀ i, key ≤ i → i < key + k → keypad i = false) →
    first_pressed_key keypad key k = none := by
  induction k with
  | zero => intro key _; rfl
  | succ k ih =>
    intro key h
    have h0 : keypad key = false := h key (Nat.le_refl _) (by omega)
    simp only [first_pressed_key, h0]
    exact ih (key + 1) (fun i h1 h2 => h i (by omega) (by omega))

theorem first_pressed_key_some (keypad : Nat → Bool) (k : Nat) : ∀ key : Nat,
    (∃ i, key ≤ i ∧ i < key + k ∧ keypad i = true) →
    ∃ r, first_pressed_key keypad key k = some r ∧ key ≤ r ∧ r < key + k ∧
      keypad r = true ∧ ∀ j, key ≤ j → j < r → keypad j = false := by
  induction k with
  | zero => rintro key ⟨i, h1, h2, _⟩; omega
  | succ k ih =>
    rintro key ⟨i, h1, h2, h3⟩
    by_cases h0 : keypad key = true
    · exact ⟨key, by simp [first_pressed_key, h0], Nat.le_refl _, by omega, h0,
        fun j hj1 hj2 => by omega⟩
    · have hne : i ≠ key := fun e => h0 (e ▸ h3)
      obtain ⟨r, e, r1, r2, r3, r4⟩ := ih (key + 1) ⟨i, by omega, by omega, h3⟩
      refine ⟨r, by simp [first_pressed_key, h0, e], by omega, by omega, r3, ?_⟩
      intro j hj1 hj2
      by_cases hj : j = key
      · subst hj; simpa using h0
      · exact r4 j (by omega) hj2

theorem run_steps_fixed (s : Machine) (h : process_instruction s = .ok s) :
    ∀ k, run_steps k s = .ok s := by
  intro k
  induction k with
  | zero => rfl
  | succ k ih => simp only [run_steps, h, ih]

/-- C10 (FX0A key-wait busy-poll): with FX0A as the next instruction at
    address p, if no key is pressed the step returns the state it started
    from, PC = p included, and so does any number of steps; if a key is
    pressed the step ends with PC = p + 2 and VX the lowest pressed key index,
    which is below 16. -/
theorem c10_key_wait (s : Machine) (X : Nat) (hX : X < 16)
    (h : next_instruction s 0xF X 0 0xA) :
    ((∀ i, i < 16 → s.keypad_state i = false) →
      process_instruction s = .ok s ∧ ∀ k, run_steps k s = .ok s) ∧
    ((∃ i, i < 16 ∧ s.keypad_state i = true) →
      ∃ s', process_instruction s = .ok s' ∧
        s'.program_counter = s.program_counter + 2 ∧
        s'.registers X < 16 ∧ s.keypad_state (s'.registers X) = true ∧
        ∀ j, j < s'.registers X → s.keypad_state j = false) := by
  have hd := process_instruction_decode s 0xF X 0 0xA hX (by norm_num) (by norm_num) h
  have hpc : (s.program_counter + 2 + 65536 - 2) % 65536 = s.program_counter := by
    have := h.1
    simp only [MEMORY_SIZE] at this
    omega
  constructor
  · intro hk
    have hn := first_pressed_key_none s.keypad_state 16 0 (fun i _ hi => hk i (by omega))
    have e0 : execute { s with program_counter := s.program_counter + 2 } (16 * 0 + 10)
        15 X 0 10 (256 * X + (16 * 0 + 10)) =
        .ok { s with program_counter := (s.program_counter + 2 + 65536 - 2) % 65536 } := by
      unfold execute case_0xF
      simp only [hn]
      rfl
    have e : process_instruction s = .ok s := by
      rw [hd, e0, hpc]
    exact ⟨e, run_steps_fixed s e⟩
  · rintro ⟨i, hi, hk⟩
    obtain ⟨r, e, _, r2, r3, r4⟩ :=
      first_pressed_key_some s.keypad_state 16 0 ⟨i, Nat.zero_le _, by omega, hk⟩
    refine ⟨set_register { s with program_counter := s.program_counter + 2 } X r, ?_, rfl,
      ?_, ?_, ?_⟩
    · rw [hd]
      simp [execute, case_0xF, e]
    · simpa [set_register] using (by omega : r < 16)
    · simpa [set_register] using r3
    · intro j hj
      exact r4 j (Nat.zero_le _) (by simpa [set_register] using hj)

theorem c10_key_wait_witness :
    next_instruction key_wait_state 0xF 4 0 0xA ∧
    (process_instruction key_wait_state = .ok key_wait_state ∧
      ∀ k, run_steps k key_wait_state = .ok key_wait_state) ∧
    next_instruction key_down_state 0xF 4 0 0xA ∧
    ∃ s', process_instruction key_down_state = .ok s' ∧
      s'.program_counter = key_down_state.program_counter + 2 ∧
      s'.registers 4 < 16 ∧ key_down_state.keypad_state (s'.registers 4) = true ∧
      ∀ j, j < s'.registers 4 → key_down_state.keypad_state j = false :=
  ⟨by decide,
    (c10_key_wait key_wait_state 4 (by decide) (by decide)).1 (fun _ _ => rfl),
    by decide,
    (c10_key_wait key_down_state 4 (by decide) (by decide)).2 ⟨7, by decide, by decide⟩⟩

/-! ## Sprite drawing -/

theorem draw_sprite_bit_eq (x row sr j : Nat) (s : Machine) :
    draw_sprite_bit x row sr j s =
      { s with
        display := set_pixel s.display row (x + j)
          (xor (s.display row (x + j)) (sprite_row_bit sr j)),
        registers := if sprite_row_bit sr j = true ∧ s.display row (x + j) = true
          then Function.update s.registers 0xF 1 else s.registers } := by
  simp only [draw_sprite_bit, sprite_row_bit, set_register]
  by_cases h : (sr >>> (8 - j - 1)) &&& 1 ≠ 0 ∧ s.display row (x + j) = true
  · have h2 : decide ((sr >>> (8 - j - 1)) &&& 1 ≠ 0) = true ∧ s.display row (x + j) = true :=
      ⟨decide_eq_true h.1, h.2⟩
    rw [if_pos h, if_pos h2]
  · have h2 : ¬ (decide ((sr >>> (8 - j - 1)) &&& 1 ≠ 0) = true ∧
        s.display row (x + j) = true) := fun h3 => h ⟨of_decide_eq_true h3.1, h3.2⟩
    rw [if_neg h, if_neg h2]

theorem draw_sprite_cols_frame (x row sr k : Nat) : ∀ (j : Nat) (s : Machine),
    draw_sprite_cols x row sr j k s =
      { s with display := (draw_sprite_cols x row sr j k s).display,
               registers := (draw_sprite_cols x row sr j k s).registers } := by
  induction k with
  | zero => intro j s; rfl
  | succ k ih =>
    intro j s
    simp only [draw_sprite_cols]
    split
    · rfl
    · rw [ih, draw_sprite_bit_eq]

theorem draw_sprite_cols_display (x row sr k : Nat) : ∀ (j : Nat) (s : Machine) (r c : Nat),
    (draw_sprite_cols x row sr j k s).display r c =
      if r = row ∧ x + j ≤ c ∧ c < x + j + k ∧ c < DISPLAY_WIDTH
      then xor (s.display r c) (sprite_row_bit sr (c - x)) else s.display r c := by
  induction k with
  | zero =>
    intro j s r c
    have : ¬ (r = row ∧ x + j ≤ c ∧ c < x + j + 0 ∧ c < DISPLAY_WIDTH) := by omega
    simp only [draw_sprite_cols, this, if_false]
  | succ k ih =>
    intro j s r c
    simp only [draw_sprite_cols]
    split
    · rename_i h
      have : ¬ (r = row ∧ x + j ≤ c ∧ c < x + j + (k + 1) ∧ c < DISPLAY_WIDTH) := by omega
      simp only [this, if_false]
    · rename_i h
      rw [ih, draw_sprite_bit_eq]
      simp only [set_pixel]
      by_cases hr : r = row
      · subst hr
        by_cases hc : c = x + j
        · subst hc
          have h1 : ¬ (r = r ∧ x + (j + 1) ≤ x + j ∧ x + j < x + (j + 1) + k ∧
              x + j < DISPLAY_WIDTH) := by omega
          have h2 : r = r ∧ x + j ≤ x + j ∧ x + j < x + j + (k + 1) ∧
              x + j < DISPLAY_WIDTH := ⟨rfl, by omega, by omega, by omega⟩
          rw [if_neg h1, if_pos h2, Function.update_same, Function.update_same,
            Nat.add_sub_cancel_left]
        · rw [Function.update_same, Function.update_noteq hc]
          by_cases h3 : r = r ∧ x + (j + 1) ≤ c ∧ c < x + (j + 1) + k ∧ c < DISPLAY_WIDTH
          · have h4 : r = r ∧ x + j ≤ c ∧ c < x + j + (k + 1) ∧ c < DISPLAY_WIDTH :=
              ⟨rfl, by omega, by omega, by omega⟩
            rw [if_pos h3, if_pos h4]
          · have h4 : ¬ (r = r ∧ x + j ≤ c ∧ c < x + j + (k + 1) ∧ c < DISPLAY_WIDTH) := by
              omega
            rw [if_neg h3, if_neg h4]
      · have h3 : ¬ (r = row ∧ x + (j + 1) ≤ c ∧ c < x + (j + 1) + k ∧ c < DISPLAY_WIDTH) :=
          fun h => hr h.1
        have h4 : ¬ (r = row ∧ x + j ≤ c ∧ c < x + j + (k + 1) ∧ c < DISPLAY_WIDTH) :=
          fun h => hr h.1
        rw [if_neg h3, if_neg h4, Function.update_noteq hr]

theorem draw_sprite_cols_registers (x row sr k : Nat) : ∀ (j : Nat) (s : Machine),
    ((∃ c, x + j ≤ c ∧ c < x + j + k ∧ c < DISPLAY_WIDTH ∧
        sprite_row_bit sr (c - x) = true ∧ s.display row c = true) →
      (draw_sprite_cols x row sr j k s).registers = Function.update s.registers 0xF 1) ∧
    (¬ (∃ c, x + j ≤ c ∧ c < x + j + k ∧ c < DISPLAY_WIDTH ∧
        sprite_row_bit sr (c - x) = true ∧ s.display row c = true) →
      (draw_sprite_cols x row sr j k s).registers = s.registers) := by
  induction k with
  | zero =>
    intro j s
    refine ⟨?_, fun _ => rfl⟩
    rintro ⟨c, h1, h2, _⟩
    omega
  | succ k ih =>
    intro j s
    simp only [draw_sprite_cols]
    split
    · rename_i h
      refine ⟨?_, fun _ => rfl⟩
      rintro ⟨c, h1, h2, h3, _⟩
      omega
    · rename_i h
      obtain ⟨ih1, ih2⟩ := ih (j + 1) (draw_sprite_bit x row sr j s)
      have hd : ∀ c, x + (j + 1) ≤ c →
          (draw_sprite_bit x row sr j s).display row c = s.display row c := by
        intro c hc
        have hne : c ≠ x + j := by omega
        simp [draw_sprite_bit_eq, set_pixel, Function.update_noteq hne]
      by_cases hit : ∃ c, x + (j + 1) ≤ c ∧ c < x + (j + 1) + k ∧ c < DISPLAY_WIDTH ∧
          sprite_row_bit sr (c - x) = true ∧
          (draw_sprite_bit x row sr j s).display row c = true
      · have hall : ∃ c, x + j ≤ c ∧ c < x + j + (k + 1) ∧ c < DISPLAY_WIDTH ∧
            sprite_row_bit sr (c - x) = true ∧ s.display row c = true := by
          obtain ⟨c, c1, c2, c3, c4, c5⟩ := hit
          exact ⟨c, by omega, by omega, c3, c4, by rw [← hd c c1]; exact c5⟩
        refine ⟨fun _ => ?_, fun hn => absurd hall hn⟩
        rw [ih1 hit, draw_sprite_bit_eq]
        by_cases hb : sprite_row_bit sr j = true ∧ s.display row (x + j) = true
        · simp only [hb, and_self, if_true, Function.update_idem]
        · simp only [hb, if_false]
      · rw [ih2 hit, draw_sprite_bit_eq]
        by_cases hb : sprite_row_bit sr j = true ∧ s.display row (x + j) = true
        · have hall : ∃ c, x + j ≤ c ∧ c < x + j + (k + 1) ∧ c < DISPLAY_WIDTH ∧
              sprite_row_bit sr (c - x) = true ∧ s.display row c = true :=
            ⟨x + j, Nat.le_refl _, by omega, by omega,
              by rw [Nat.add_sub_cancel_left]; exact hb.1, hb.2⟩
          refine ⟨fun _ => ?_, fun hn => absurd hall hn⟩
          simp only [hb, and_self, if_true]
        · have hnone : ¬ ∃ c, x + j ≤ c ∧ c < x + j + (k + 1) ∧ c < DISPLAY_WIDTH ∧
              sprite_row_bit sr (c - x) = true ∧ s.display row c = true := by
            rintro ⟨c, c1, c2, c3, c4, c5⟩
            by_cases hc : c = x + j
            · subst hc
              rw [Nat.add_sub_cancel_left] at c4
              exact hb ⟨c4, c5⟩
            · exact hit ⟨c, by omega, by omega, c3, c4, by rw [hd c (by omega)]; exact c5⟩
          refine ⟨fun hy => absurd hy hnone, fun _ => ?_⟩
          simp only [hb, if_false]

theorem draw_sprite_rows_spec (x y k : Nat) : ∀ (i : Nat) (s : Machine),
    s.index_register + i + k ≤ MEMORY_SIZE →
    ∃ s', draw_sprite_rows x y i k s = .ok s' ∧
      s' = { s with display := s'.display, registers := s'.registers } ∧
      (∀ r c, s'.display r c =
        if in_sprite x y i k r c then xor (s.display r c) (sprite_bit s x y r c)
        else s.display r c) ∧
      ((∃ r c, in_sprite x y i k r c ∧ sprite_bit s x y r c = true ∧ s.display r c = true) →
        s'.registers = Function.update s.registers 0xF 1) ∧
      (¬ (∃ r c, in_sprite x y i k r c ∧ sprite_bit s x y r c = true ∧ s.display r c = true) →
        s'.registers = s.registers) := by
  induction k with
  | zero =>
    intro i s _
    have hno : ∀ r c, ¬ in_sprite x y i 0 r c := by
      intro r c h; unfold in_sprite at h; omega
    refine ⟨s, rfl, rfl, ?_, ?_, fun _ => rfl⟩
    · intro r c; rw [if_neg (hno r c)]
    · rintro ⟨r, c, h, _⟩; exact absurd h (hno r c)
  | succ k ih =>
    intro i s hI
    simp only [draw_sprite_rows]
    split
    · rename_i hy
      have hno : ∀ r c, ¬ in_sprite x y i (k + 1) r c := by
        intro r c h; unfold in_sprite at h; omega
      refine ⟨s, rfl, rfl, ?_, ?_, fun _ => rfl⟩
      · intro r c; rw [if_neg (hno r c)]
      · rintro ⟨r, c, h, _⟩; exact absurd h (hno r c)
    · rename_i hy
      have hI2 : s.index_register + i < MEMORY_SIZE := by omega
      rw [if_pos hI2]
      have hf := draw_sprite_cols_frame x (y + i) (s.memory (s.index_register + i)) 8 0 s
      have hd := draw_sprite_cols_display x (y + i) (s.memory (s.index_register + i)) 8 0 s
      obtain ⟨hr1, hr2⟩ :=
        draw_sprite_cols_registers x (y + i) (s.memory (s.index_register + i)) 8 0 s
      generalize draw_sprite_cols x (y + i) (s.memory (s.index_register + i)) 0 8 s = s1
        at hf hd hr1 hr2
      have hm : s1.memory = s.memory := by rw [hf]
      have hx : s1.index_register = s.index_register := by rw [hf]
      obtain ⟨s', e, f', d', r1', r2'⟩ := ih (i + 1) s1 (by rw [hx]; omega)
      have hbit : ∀ r c, sprite_bit s1 x y r c = sprite_bit s x y r c := by
        intro r c; simp only [sprite_bit, hm, hx]
      have hrow : ∀ c, sprite_bit s x y (y + i) c =
          sprite_row_bit (s.memory (s.index_register + i)) (c - x) := by
        intro c; simp only [sprite_bit, Nat.add_sub_cancel_left]
      have hother : ∀ r c, r ≠ y + i → s1.display r c = s.display r c := by
        intro r c hr
        rw [hd, if_neg (fun h => hr h.1)]
      refine ⟨s', e, ?_, ?_, ?_, ?_⟩
      · rw [f', hf]
      · intro r c
        rw [d', hbit]
        by_cases hr : r = y + i
        · subst hr
          have h1 : ¬ in_sprite x y (i + 1) k (y + i) c := by
            intro h; unfold in_sprite at h; omega
          rw [if_neg h1, hd, hrow]
          by_cases h2 : in_sprite x y i (k + 1) (y + i) c
          · have h3 : y + i = y + i ∧ x + 0 ≤ c ∧ c < x + 0 + 8 ∧ c < DISPLAY_WIDTH := by
              unfold in_sprite at h2; omega
            rw [if_pos h2, if_pos h3]
          · have h3 : ¬ (y + i = y + i ∧ x + 0 ≤ c ∧ c < x + 0 + 8 ∧ c < DISPLAY_WIDTH) := by
              unfold in_sprite at h2; omega
            rw [if_neg h2, if_neg h3]
        · rw [hother r c hr]
          by_cases h2 : in_sprite x y i (k + 1) r c
          · have h3 : in_sprite x y (i + 1) k r c := by
              unfold in_sprite at h2 ⊢; omega
            rw [if_pos h2, if_pos h3]
          · have h3 : ¬ in_sprite x y (i + 1) k r c := by
              unfold in_sprite at h2 ⊢; omega
            rw [if_neg h2, if_neg h3]
      · rintro ⟨r, c, h1, h2, h3⟩
        by_cases hr : r = y + i
        · subst hr
          have hc : ∃ c, x + 0 ≤ c ∧ c < x + 0 + 8 ∧ c < DISPLAY_WIDTH ∧
              sprite_row_bit (s.memory (s.index_register + i)) (c - x) = true ∧
              s.display (y + i) c = true :=
            ⟨c, by unfold in_sprite at h1; omega, by unfold in_sprite at h1; omega,
              by unfold in_sprite at h1; omega, by rw [← hrow]; exact h2, h3⟩
          by_cases hit : ∃ r c, in_sprite x y (i + 1) k r c ∧ sprite_bit s1 x y r c = true ∧
              s1.display r c = true
          · rw [r1' hit, hr1 hc, Function.update_idem]
          · rw [r2' hit, hr1 hc]
        · have hit : ∃ r c, in_sprite x y (i + 1) k r c ∧ sprite_bit s1 x y r c = true ∧
              s1.display r c = true :=
            ⟨r, c, by unfold in_sprite at h1 ⊢; omega, by rw [hbit]; exact h2,
              by rw [hother r c hr]; exact h3⟩
          rw [r1' hit]
          by_cases hc : ∃ c, x + 0 ≤ c ∧ c < x + 0 + 8 ∧ c < DISPLAY_WIDTH ∧
              sprite_row_bit (s.memory (s.index_register + i)) (c - x) = true ∧
              s.display (y + i) c = true
          · rw [hr1 hc, Function.update_idem]
          · rw [hr2 hc]
      · intro hno
        have hc : ¬ ∃ c, x + 0 ≤ c ∧ c < x + 0 + 8 ∧ c < DISPLAY_WIDTH ∧
            sprite_row_bit (s.memory (s.index_register + i)) (c - x) = true ∧
            s.display (y + i) c = true := by
          rintro ⟨c, c1, c2, c3, c4, c5⟩
          exact hno ⟨y + i, c, by unfold in_sprite; omega, by rw [hrow]; exact c4, c5⟩
        have hit : ¬ ∃ r c, in_sprite x y (i + 1) k r c ∧ sprite_bit s1 x y r c = true ∧
            s1.display r c = true := by
          rintro ⟨r, c, h1, h2, h3⟩
          have hr : r ≠ y + i := by unfold in_sprite at h1; omega
          exact hno ⟨r, c, by unfold in_sprite at h1 ⊢; omega, by rw [← hbit]; exact h2,
            by rw [← hother r c hr]; exact h3⟩
        rw [r2' hit, hr2 hc]

/-- `draw_sprite` with the sprite rows inside memory: it succeeds, touches
    only the display and VF, XORs the unclipped sprite bits into the display
    and sets VF to the collision flag. -/
theorem draw_sprite_spec (s : Machine) (x y n : Nat)
    (hI : s.index_register + n ≤ MEMORY_SIZE) :
    ∃ s', draw_sprite s x y n = .ok s' ∧
      s' = { s with display := s'.display, registers := s'.registers } ∧
      (∀ r c, s'.display r c =
        if in_sprite x y 0 n r c then xor (s.display r c) (sprite_bit s x y r c)
        else s.display r c) ∧
      (∀ i, i ≠ 0xF → s'.registers i = s.registers i) ∧
      ((∃ r c, in_sprite x y 0 n r c ∧ sprite_bit s x y r c = true ∧ s.display r c = true) →
        s'.registers 0xF = 1) ∧
      (¬ (∃ r c, in_sprite x y 0 n r c ∧ sprite_bit s x y r c = true ∧ s.display r c = true) →
        s'.registers 0xF = 0) := by
  obtain ⟨s', e, f, d, r1, r2⟩ := draw_sprite_rows_spec x y n 0 (set_register s 0xF 0)
    (by simpa [set_register] using hI)
  refine ⟨s', e, ?_, d, ?_, ?_, ?_⟩
  · rw [f]; rfl
  · intro i hi
    by_cases hit : ∃ r c, in_sprite x y 0 n r c ∧
        sprite_bit (set_register s 0xF 0) x y r c = true ∧
        (set_register s 0xF 0).display r c = true
    · rw [r1 hit]; simp [set_register, Function.update_noteq hi]
    · rw [r2 hit]; simp [set_register, Function.update_noteq hi]
  · intro hit
    rw [r1 hit]; simp
  · intro hit
    rw [r2 hit]; simp [set_register]

/-- C3 (sprite double-draw): with the sprite rows inside memory, two
    successive calls `draw_sprite(x, y, n)` both succeed, leave every pixel
    as it was before the first call, and VF after the second call is 1
    exactly when the first call turned on a pixel that was off (and is 0
    otherwise). -/
theorem c3_double_draw (s : Machine) (x y n : Nat)
    (hI : s.index_register + n ≤ MEMORY_SIZE) :
    ∃ s1 s2, draw_sprite s x y n = .ok s1 ∧ draw_sprite s1 x y n = .ok s2 ∧
      (∀ r c, s2.display r c = s.display r c) ∧
      (s2.registers 0xF = 1 ↔
        ∃ r c, r < DISPLAY_HEIGHT ∧ c < DISPLAY_WIDTH ∧
          s.display r c = false ∧ s1.display r c = true) ∧
      (s2.registers 0xF = 1 ∨ s2.registers 0xF = 0) := by
  obtain ⟨s1, e1, f1, d1, _, _, _⟩ := draw_sprite_spec s x y n hI
  have hm : s1.memory = s.memory := by rw [f1]
  have hx : s1.index_register = s.index_register := by rw [f1]
  obtain ⟨s2, e2, _, d2, _, v1, v0⟩ := draw_sprite_spec s1 x y n (by rw [hx]; exact hI)
  have hbit : ∀ r c, sprite_bit s1 x y r c = sprite_bit s x y r c := by
    intro r c; simp only [sprite_bit, hm, hx]
  have hiff : (∃ r c, in_sprite x y 0 n r c ∧ sprite_bit s1 x y r c = true ∧
        s1.display r c = true) ↔
      ∃ r c, r < DISPLAY_HEIGHT ∧ c < DISPLAY_WIDTH ∧
        s.display r c = false ∧ s1.display r c = true := by
    constructor
    · rintro ⟨r, c, h1, h2, h3⟩
      refine ⟨r, c, h1.2.2.1, h1.2.2.2.2.2, ?_, h3⟩
      rw [d1, if_pos h1, ← hbit, h2] at h3
      simpa using h3
    · rintro ⟨r, c, _, _, h3, h4⟩
      by_cases h1 : in_sprite x y 0 n r c
      · refine ⟨r, c, h1, ?_, h4⟩
        rw [d1, if_pos h1, h3] at h4
        rw [hbit]; simpa using h4
      · rw [d1, if_neg h1, h3] at h4
        cases h4
  refine ⟨s1, s2, e1, e2, ?_, ?_, ?_⟩
  · intro r c
    rw [d2, hbit, d1]
    by_cases h1 : in_sprite x y 0 n r c
    · rw [if_pos h1, if_pos h1]; simp
    · rw [if_neg h1, if_neg h1]
  · rw [← hiff]
    constructor
    · intro h
      by_contra hno
      rw [v0 hno] at h
      cases h
    · exact v1
  · by_cases hit : ∃ r c, in_sprite x y 0 n r c ∧ sprite_bit s1 x y r c = true ∧
        s1.display r c = true
    · exact Or.inl (v1 hit)
    · exact Or.inr (v0 hit)

theorem c3_double_draw_witness :
    sprite_state.index_register + 5 ≤ MEMORY_SIZE ∧
    ∃ s1 s2, draw_sprite sprite_state 60 29 5 = .ok s1 ∧ draw_sprite s1 60 29 5 = .ok s2 ∧
      (∀ r c, s2.display r c = sprite_state.display r c) ∧
      (s2.registers 0xF = 1 ↔
        ∃ r c, r < DISPLAY_HEIGHT ∧ c < DISPLAY_WIDTH ∧
          sprite_state.display r c = false ∧ s1.display r c = true) ∧
      (s2.registers 0xF = 1 ∨ s2.registers 0xF = 0) :=
  ⟨by decide, c3_double_draw sprite_state 60 29 5 (by decide)⟩

/-! ## Reset and the glyph program -/

/-- `reset` with an image that fits below the end of memory. -/
theorem reset_spec (s : Machine) (image : List Nat) (hlen : image.length ≤ 3584) :
    ∃ s0, reset s image = .ok s0 ∧
      s0.program_counter = 512 ∧ s0.index_register = 0 ∧
      (∀ a, a < 80 → s0.memory a = FONT.getD a 0) ∧
      (∀ i, i < image.length → s0.memory (512 + i) = image.getD i 0) ∧
      (∀ a, 80 ≤ a → a < 4096 → ¬ (512 ≤ a ∧ a < 512 + image.length) → s0.memory a = 0) ∧
      (∀ i, i < 16 → s0.registers i = 0) ∧
      s0.top_of_stack = 0 ∧ s0.delay_timer = 0 ∧ s0.sound_timer = 0 ∧
      (∀ r c, r < 32 → c < 64 → s0.display r c = false) ∧
      (∀ i, i < 16 → s0.keypad_state i = false) ∧
      s0.modern_flag = s.modern_flag := by
  have hmin : min image.length MEMORY_SIZE = image.length :=
    Nat.min_eq_left (by simp only [MEMORY_SIZE]; omega)
  have hfit : PROGRAM_START_OFFSET + image.length ≤ MEMORY_SIZE := by
    simp only [PROGRAM_START_OFFSET, MEMORY_SIZE]; omega
  have hfont : FONT.length = 80 := rfl
  simp only [reset, load_file, hmin, if_pos hfit]
  refine ⟨_, rfl, rfl, rfl, ?_, ?_, ?_, ?_, rfl, rfl, rfl, ?_, ?_, rfl⟩
  · intro a ha
    simp only [load_font, hfont, if_pos ha]
  · intro i hi
    have h1 : ¬ (512 + i < 80) := by omega
    have h2 : PROGRAM_START_OFFSET ≤ 512 + i ∧
        512 + i < PROGRAM_START_OFFSET + image.length := by
      simp only [PROGRAM_START_OFFSET]; omega
    simp only [load_font, hfont, if_neg h1, if_pos h2, PROGRAM_START_OFFSET,
      Nat.add_sub_cancel_left]
  · intro a h1 h2 h3
    have h4 : ¬ (a < 80) := by omega
    have h5 : ¬ (PROGRAM_START_OFFSET ≤ a ∧ a < PROGRAM_START_OFFSET + image.length) := h3
    have h6 : a < MEMORY_SIZE := h2
    simp only [load_font, hfont, if_neg h4, if_neg h5, clear_display, if_pos h6]
  · intro i hi
    simp only [load_font, clear_display, if_pos hi]
  · intro r c hr hc
    have h1 : r < DISPLAY_HEIGHT ∧ c < DISPLAY_WIDTH := ⟨hr, hc⟩
    simp only [load_font, clear_display, if_pos h1]
  · intro i hi
    simp only [load_font, clear_display, if_pos hi]

theorem step_00e0 (s : Machine) (h : next_instruction s 0 0 0xE 0) :
    process_instruction s =
      .ok (clear_display { s with program_counter := s.program_counter + 2 }) := by
  rw [process_instruction_decode s 0 0 0xE 0 (by norm_num) (by norm_num) (by norm_num) h]
  simp [execute, case_0x0]

theorem step_6xnn (s : Machine) (X n3 n4 : Nat) (hX : X < 16) (h3 : n3 < 16) (h4 : n4 < 16)
    (h : next_instruction s 6 X n3 n4) :
    process_instruction s =
      .ok (set_register { s with program_counter := s.program_counter + 2 } X
        (16 * n3 + n4)) := by
  rw [process_instruction_decode s 6 X n3 n4 hX h3 h4 h]
  simp [execute]

theorem step_dxyn (s : Machine) (X Y N : Nat) (hX : X < 16) (hY : Y < 16) (hN : N < 16)
    (h : next_instruction s 0xD X Y N) :
    process_instruction s =
      draw_sprite { s with program_counter := s.program_counter + 2 }
        (s.registers X &&& 63) (s.registers Y &&& 31) N := by
  rw [process_instruction_decode s 0xD X Y N hX hY hN h]
  simp [execute]

theorem digit0_pixel_outside (r c : Nat) (h : ¬ (r < 5 ∧ c < 8)) : digit0_pixel r c = false := by
  unfold digit0_pixel
  by_cases hr : r < 5
  · have hl : (digit0_rows.getD r []).length ≤ 4 := by
      interval_cases r <;> decide
    exact List.getD_eq_default _ _ (by omega)
  · have hl : digit0_rows.length ≤ r := by
      have : digit0_rows.length = 5 := rfl
      omega
    rw [List.getD_eq_default _ _ hl]
    rfl

theorem digit0_pixel_inside (r c : Nat) (hr : r < 5) (hc : c < 8) :
    sprite_row_bit (FONT.getD r 0) c = digit0_pixel r c := by
  interval_cases r <;> interval_cases c <;> rfl

/-- C8 (end-to-end glyph draw): for every image of at most 3584 bytes that
    begins with `00 E0 60 00 61 00 D0 15`, reset followed by four instruction
    steps succeeds and leaves the digit-0 glyph in rows 0..4, columns 0..3,
    every other pixel off, VF = 0 and PC = 520. -/
theorem c8_glyph_draw (s : Machine) (rest : List Nat)
    (hlen : (glyph_program ++ rest).length ≤ 3584) :
    ∃ s0 s4, reset s (glyph_program ++ rest) = .ok s0 ∧ run_steps 4 s0 = .ok s4 ∧
      (∀ r c, r < 32 → c < 64 → s4.display r c = digit0_pixel r c) ∧
      s4.registers 0xF = 0 ∧ s4.program_counter = 520 := by
  obtain ⟨s0, e0, hpc, hidx, hfont, himg, _, _, _, _, _, hdisp, _, _⟩ :=
    reset_spec s (glyph_program ++ rest) hlen
  have hb : ∀ i, i < 8 → s0.memory (512 + i) = glyph_program.getD i 0 := by
    intro i hi
    rw [himg i (by simp only [List.length_append, glyph_program, List.length_cons,
      List.length_nil]; omega)]
    exact List.getD_append _ _ _ _ hi
  obtain ⟨d, m, st, tos, regs, pc, idx, dt, stm, kp, mf, rv, rc⟩ := s0
  simp only at hpc hidx hfont hb hdisp
  subst hpc
  subst hidx
  have e1 := step_00e0 ⟨d, m, st, tos, regs, 512, 0, dt, stm, kp, mf, rv, rc⟩
    ⟨by show (512 : Nat) + 1 < 4096; decide, hb 0 (by norm_num), hb 1 (by norm_num)⟩
  have e2 := step_6xnn (clear_display ⟨d, m, st, tos, regs, 512 + 2, 0, dt, stm, kp, mf, rv, rc⟩)
    0 0 0 (by norm_num) (by norm_num) (by norm_num)
    ⟨by show (512 : Nat) + 2 + 1 < 4096; decide, hb 2 (by norm_num), hb 3 (by norm_num)⟩
  have e3 := step_6xnn
    (set_register { clear_display ⟨d, m, st, tos, regs, 512 + 2, 0, dt, stm, kp, mf, rv, rc⟩
      with program_counter := 512 + 2 + 2 } 0 (16 * 0 + 0))
    1 0 0 (by norm_num) (by norm_num) (by norm_num)
    ⟨by show (512 : Nat) + 2 + 2 + 1 < 4096; decide, hb 4 (by norm_num), hb 5 (by norm_num)⟩
  have e4 := step_dxyn
    (set_register { set_register
      { clear_display ⟨d, m, st, tos, regs, 512 + 2, 0, dt, stm, kp, mf, rv, rc⟩
        with program_counter := 512 + 2 + 2 } 0 (16 * 0 + 0)
      with program_counter := 512 + 2 + 2 + 2 } 1 (16 * 0 + 0))
    0 1 5 (by norm_num) (by norm_num) (by norm_num)
    ⟨by show (512 : Nat) + 2 + 2 + 2 + 1 < 4096; decide, hb 6 (by norm_num),
      hb 7 (by norm_num)⟩
  have hx : (16 * 0 + 0 : Nat) &&& 63 = 0 := by decide
  have hy : (16 * 0 + 0 : Nat) &&& 31 = 0 := by decide
  simp only [set_register, clear_display, Function.update_same,
    Function.update_noteq (by decide : (0 : Nat) ≠ 1), hx, hy] at e1 e2 e3 e4
  obtain ⟨s4, e5, f5, d5, _, _, v0⟩ := draw_sprite_spec
    { display := fun row col =>
        if row < DISPLAY_HEIGHT ∧ col < DISPLAY_WIDTH then false else d row col,
      memory := m, stack := st, top_of_stack := tos,
      registers := Function.update (Function.update regs 0 (16 * 0 + 0)) 1 (16 * 0 + 0),
      program_counter := 512 + 2 + 2 + 2 + 2, index_register := 0, delay_timer := dt,
      sound_timer := stm, keypad_state := kp, modern_flag := mf, rand_values := rv,
      rand_calls := rc } 0 0 5 (by show (0 : Nat) + 5 ≤ 4096; decide)
  refine ⟨_, s4, e0, ?_, ?_, ?_, ?_⟩
  · simp only [run_steps, e1, clear_display, e2, set_register, e3, e4, e5]
  · intro r c hr hc
    have hoff : (if r < DISPLAY_HEIGHT ∧ c < DISPLAY_WIDTH then false else d r c) = false :=
      if_pos ⟨hr, hc⟩
    rw [d5]
    simp only [hoff, sprite_bit, Nat.sub_zero, Nat.zero_add, Bool.false_xor]
    by_cases hin : in_sprite 0 0 0 5 r c
    · have h5 : r < 5 := by unfold in_sprite at hin; omega
      have h8 : c < 8 := by unfold in_sprite at hin; omega
      rw [if_pos hin, hfont r (by omega)]
      exact digit0_pixel_inside r c h5 h8
    · rw [if_neg hin]
      have hout : ¬ (r < 5 ∧ c < 8) := by
        intro h; apply hin; unfold in_sprite; simp only [DISPLAY_HEIGHT, DISPLAY_WIDTH]; omega
      exact (digit0_pixel_outside r c hout).symm
  · apply v0
    rintro ⟨r, c, hin, _, hlit⟩
    have hoff : (if r < DISPLAY_HEIGHT ∧ c < DISPLAY_WIDTH then false else d r c) = false :=
      if_pos ⟨hin.2.2.1, hin.2.2.2.2.2⟩
    simp only [hoff] at hlit
    cases hlit
  · rw [f5]

theorem c8_glyph_draw_witness :
    (glyph_program ++ [0x12, 0x08]).length ≤ 3584 ∧
    ∃ s0 s4, reset sprite_state (glyph_program ++ [0x12, 0x08]) = .ok s0 ∧
      run_steps 4 s0 = .ok s4 ∧
      (∀ r c, r < 32 → c < 64 → s4.display r c = digit0_pixel r c) ∧
      s4.registers 0xF = 0 ∧ s4.program_counter = 520 :=
  ⟨by decide, c8_glyph_draw sprite_state [0x12, 0x08] (by decide)⟩

/-! ## Program load -/

/-- `load_file` on every image: an image of at most 3584 bytes is stored at
    512..., a longer one makes the copy run past the end of `memory`. -/
theorem load_file_spec (s : Machine) (image : List Nat) :
    (image.length ≤ 3584 →
      ∃ s', load_file s image = .ok s' ∧
        (∀ i, i < image.length → s'.memory (512 + i) = image.getD i 0) ∧
        (∀ a, ¬ (512 ≤ a ∧ a < 512 + image.length) → s'.memory a = s.memory a)) ∧
    (3584 < image.length → load_file s image = .error .out_of_bounds) := by
  constructor
  · intro hlen
    have hmin : min image.length MEMORY_SIZE = image.length :=
      Nat.min_eq_left (by simp only [MEMORY_SIZE]; omega)
    have hfit : PROGRAM_START_OFFSET + image.length ≤ MEMORY_SIZE := by
      simp only [PROGRAM_START_OFFSET, MEMORY_SIZE]; omega
    simp only [load_file, hmin, if_pos hfit]
    refine ⟨_, rfl, ?_, ?_⟩
    · intro i hi
      have h2 : PROGRAM_START_OFFSET ≤ 512 + i ∧
          512 + i < PROGRAM_START_OFFSET + image.length := by
        simp only [PROGRAM_START_OFFSET]; omega
      simp only [if_pos h2, PROGRAM_START_OFFSET, Nat.add_sub_cancel_left]
    · intro a ha
      have h2 : ¬ (PROGRAM_START_OFFSET ≤ a ∧ a < PROGRAM_START_OFFSET + image.length) := ha
      simp only [if_neg h2]
  · intro hlen
    have hover : ¬ (PROGRAM_START_OFFSET + min image.length MEMORY_SIZE ≤ MEMORY_SIZE) := by
      simp only [PROGRAM_START_OFFSET, MEMORY_SIZE]
      omega
    simp only [load_file, if_neg hover]

/-- C11 (program load is clamped): `fread` is given `sizeof(memory)` = 4096 as
    the byte count, not the 3584 bytes that remain after offset 512; for an
    image of 3585 bytes the copy covers the addresses 512 up to and including
    4096, one past the end of `memory`, instead of stopping after 3584 bytes. -/
theorem c11_load_file_overrun :
    oversize_image.length = 3585 ∧
    PROGRAM_START_OFFSET + min oversize_image.length MEMORY_SIZE = 4097 ∧
    load_file power_on oversize_image = .error .out_of_bounds := by
  have hlen : oversize_image.length = 3585 := List.length_replicate _ _
  refine ⟨hlen, by rw [hlen]; decide, ?_⟩
  exact (load_file_spec power_on oversize_image).2 (by rw [hlen]; decide)

/-! ## Instruction words without a case -/

/-- A word of the families 0, 8, 0xE, 0xF for which the switch has no case
    leaves everything but the program counter as it is. -/
theorem no_case_step (s : Machine) (n1 n2 n3 n4 : Nat)
    (h2 : n2 < 16) (h3 : n3 < 16) (h4 : n4 < 16)
    (h : next_instruction s n1 n2 n3 n4) (hn : no_case n1 n2 n3 n4) :
    process_instruction s = .ok { s with program_counter := s.program_counter + 2 } := by
  rw [process_instruction_decode s n1 n2 n3 n4 h2 h3 h4 h]
  rcases hn with ⟨rfl, h0⟩ | ⟨rfl, h8⟩ | ⟨rfl, hE1, hE2⟩ | ⟨rfl, hF⟩
  · by_cases hp : n2 = 0x0 ∧ n3 = 0xE
    · have hn0 : n4 ≠ 0x0 := fun e => h0 ⟨hp.1, hp.2, Or.inl e⟩
      have hnE : n4 ≠ 0xE := fun e => h0 ⟨hp.1, hp.2, Or.inr e⟩
      simp only [execute, case_0x0, if_pos hp, if_neg hn0, if_neg hnE, if_true]
    · simp only [execute, case_0x0, if_neg hp, if_true]
  · rcases h8 with rfl | rfl | rfl | rfl | rfl | rfl | rfl <;> simp [execute, case_0x8]
  · simp [execute, case_0xE, hE1, hE2]
  · simp only [List.mem_cons, List.mem_singleton, not_or, List.not_mem_nil, or_false] at hF
    obtain ⟨f1, f2, f3, f4, f5, f6, f7, f8, f9⟩ := hF
    simp [execute, case_0xF, f1, f2, f3, f4, f5, f6, f7, f8, f9]

theorem no_case_step_example :
    process_instruction no_case_state =
      .ok { no_case_state with program_counter := no_case_state.program_counter + 2 } :=
  no_case_step no_case_state 8 3 4 9 (by decide) (by decide) (by decide) (by decide)
    (by decide)

/-- C12 (unrecognized instructions are no-ops, 5XYN and 9XYN with N != 0):
    the cases 0x5 and 0x9 of the switch do not look at the last nibble, so
    `5011` with V0 = V1 skips (PC = 516, not 514) and `9011` with V0 != V1
    skips as well. -/
theorem c12_last_nibble_ignored :
    next_instruction skip_5xy1_state 5 0 1 1 ∧ skip_5xy1_state.program_counter = 512 ∧
    (∃ s', process_instruction skip_5xy1_state = .ok s' ∧ s'.program_counter = 516 ∧
      s'.program_counter ≠ skip_5xy1_state.program_counter + 2) ∧
    next_instruction skip_9xy1_state 9 0 1 1 ∧ skip_9xy1_state.program_counter = 512 ∧
    (∃ s', process_instruction skip_9xy1_state = .ok s' ∧ s'.program_counter = 516 ∧
      s'.program_counter ≠ skip_9xy1_state.program_counter + 2) := by
  refine ⟨by decide, by decide, ⟨_, rfl, by decide, by decide⟩, by decide, by decide,
    ⟨_, rfl, by decide, by decide⟩⟩

/-! ## Flag register as destination -/

/-- C13 (flag writes to VF take priority): with X = 0xF the code writes the
    flag into VF first and the arithmetic or shift result over it afterwards.
    `8F14` with VF = 200, V1 = 100 leaves VF = 101 (carry 1); `8F15` with
    VF = 200, V1 = 100 leaves VF = 157 (no-borrow 1); `8F17` with VF = 100,
    V1 = 200 leaves VF = 199 (no-borrow 1); `8F16` with VF = 3 leaves VF = 0
    (shifted-out bit 1); `8F1E` with VF = 0x80 leaves VF = 2 (shifted-out
    bit 1). -/
theorem c13_vf_destination_overwritten :
    (∃ s', process_instruction (vf_destination_state 4 200 100) = .ok s' ∧
      s'.registers 0xF = 101 ∧ s'.registers 0xF ≠ (if 200 + 100 > 255 then 1 else 0)) ∧
    (∃ s', process_instruction (vf_destination_state 5 200 100) = .ok s' ∧
      s'.registers 0xF = 157 ∧ s'.registers 0xF ≠ (if 200 ≥ 100 then 1 else 0)) ∧
    (∃ s', process_instruction (vf_destination_state 7 100 200) = .ok s' ∧
      s'.registers 0xF = 199 ∧ s'.registers 0xF ≠ (if 200 ≥ 100 then 1 else 0)) ∧
    (∃ s', process_instruction (vf_destination_state 6 3 0) = .ok s' ∧
      s'.registers 0xF = 0 ∧ s'.registers 0xF ≠ 3 &&& 1) ∧
    (∃ s', process_instruction (vf_destination_state 0xE 0x80 0) = .ok s' ∧
      s'.registers 0xF = 2 ∧ s'.registers 0xF ≠ (0x80 >>> 7) &&& 1) := by
  refine ⟨⟨_, rfl, by decide, by decide⟩, ⟨_, rfl, by decide, by decide⟩,
    ⟨_, rfl, by decide, by decide⟩, ⟨_, rfl, by decide, by decide⟩,
    ⟨_, rfl, by decide, by decide⟩⟩

/-! ## FX1E -/

/-- FX1E for X other than 0xF as the code executes it: I becomes
    (I + VX) mod 65536 in both modes; in modern mode VF becomes 1 when I + VX
    exceeds 0x1000 and no register changes otherwise; in legacy mode no
    register changes. -/
theorem fx1e_step (s : Machine) (X : Nat) (hX : X < 16) (hXF : X ≠ 0xF)
    (h : next_instruction s 0xF X 1 0xE) :
    ∃ s', process_instruction s = .ok s' ∧
      s'.index_register = (s.index_register + s.registers X) % 65536 ∧
      (s.modern_flag = true → s.index_register + s.registers X > 0x1000 →
        s'.registers 0xF = 1 ∧ ∀ i, i ≠ 0xF → s'.registers i = s.registers i) ∧
      (s.modern_flag = true → s.index_register + s.registers X ≤ 0x1000 →
        s'.registers = s.registers) ∧
      (s.modern_flag = false → s'.registers = s.registers) := by
  rw [process_instruction_decode s 0xF X 1 0xE hX (by norm_num) (by norm_num) h]
  have hXF2 : X ≠ 15 := hXF
  have e : execute { s with program_counter := s.program_counter + 2 } (16 * 1 + 14)
      15 X 1 14 (256 * X + (16 * 1 + 14)) =
      .ok { (if s.modern_flag = true ∧
                (s.index_register : Int) > 0x1000 - (s.registers X : Int)
              then set_register { s with program_counter := s.program_counter + 2 } 0xF 1
              else { s with program_counter := s.program_counter + 2 }) with
            index_register :=
              ((if s.modern_flag = true ∧
                  (s.index_register : Int) > 0x1000 - (s.registers X : Int)
                then set_register { s with program_counter := s.program_counter + 2 } 0xF 1
                else { s with program_counter := s.program_counter + 2 }).index_register +
               (if s.modern_flag = true ∧
                  (s.index_register : Int) > 0x1000 - (s.registers X : Int)
                then set_register { s with program_counter := s.program_counter + 2 } 0xF 1
                else { s with program_counter := s.program_counter + 2 }).registers X)
              % 65536 } := by
    unfold execute case_0xF
    rfl
  refine ⟨_, e, ?_, ?_, ?_, ?_⟩
  · by_cases hc : s.modern_flag = true ∧
        (s.index_register : Int) > 0x1000 - (s.registers X : Int)
    · rw [if_pos hc]; simp [set_register, Function.update_noteq hXF2]
    · rw [if_neg hc]
  · intro hm hgt
    have hc : s.modern_flag = true ∧
        (s.index_register : Int) > 0x1000 - (s.registers X : Int) := ⟨hm, by omega⟩
    rw [if_pos hc]
    refine ⟨by simp [set_register], ?_⟩
    intro i hi
    simp [set_register, Function.update_noteq hi]
  · intro _ hle
    have hc : ¬ (s.modern_flag = true ∧
        (s.index_register : Int) > 0x1000 - (s.registers X : Int)) := by
      intro hc; have := hc.2; omega
    rw [if_neg hc]
  · intro hf
    have hc : ¬ (s.modern_flag = true ∧
        (s.index_register : Int) > 0x1000 - (s.registers X : Int)) := by
      intro hc; rw [hf] at hc; cases hc.1
    rw [if_neg hc]

theorem fx1e_step_example :
    ∃ s', process_instruction index_add_far_state = .ok s' ∧
      s'.index_register = 0x1010 ∧ s'.registers 0xF = 1 := by
  obtain ⟨s', e, hi, hv, _, _⟩ :=
    fx1e_step index_add_far_state 2 (by decide) (by decide) (by decide)
  exact ⟨s', e, by rw [hi]; decide, (hv (by decide) (by decide)).1⟩

/-- C20 (FX1E in modern mode, I + VX = 0x1000): the code compares against
    0x1000, not 0xFFF; `F01E` in modern mode with I = 0xFFF, V0 = 1, VF = 0
    leaves I = 0x1000, beyond the last address 0xFFF, and VF = 0, not 1. -/
theorem c20_index_add_boundary :
    next_instruction index_add_state 0xF 0 1 0xE ∧ index_add_state.modern_flag = true ∧
    index_add_state.index_register + index_add_state.registers 0 > 0xFFF ∧
    ∃ s', process_instruction index_add_state = .ok s' ∧
      s'.index_register = 0x1000 ∧ s'.registers 0xF = 0 ∧ s'.registers 0xF ≠ 1 := by
  refine ⟨by decide, by decide, by decide, _, rfl, by decide, by decide, by decide⟩

/-! ## DXYN -/

theorem in_sprite_iff (x y n r c : Nat) :
    in_sprite x y 0 n r c ↔
      (y ≤ r ∧ r < y + n ∧ r < 32 ∧ x ≤ c ∧ c < x + 8 ∧ c < 64) := by
  unfold in_sprite
  simp only [Nat.add_zero, DISPLAY_HEIGHT, DISPLAY_WIDTH]

theorem sprite_bit_eq (s : Machine) (x y r c : Nat) :
    sprite_bit s x y r c =
      (s.memory (s.index_register + (r - y))).testBit (7 - (c - x)) := by
  have h : 8 - (c - x) - 1 = 7 - (c - x) := by omega
  simp only [sprite_bit, sprite_row_bit, h]
  simp [Nat.testBit, Nat.and_comm]

/-- The step DXYN with the sprite rows inside memory, in terms of
    `draw_sprite` at the masked coordinates. -/
theorem dxyn_step (s : Machine) (X Y N : Nat) (hX : X < 16) (hY : Y < 16) (hN : N < 16)
    (h : next_instruction s 0xD X Y N) :
    process_instruction s =
      draw_sprite { s with program_counter := s.program_counter + 2 }
        (s.registers X % 64) (s.registers Y % 32) N := by
  rw [step_dxyn s X Y N hX hY hN h]
  have h1 : s.registers X &&& 63 = s.registers X % 64 :=
    Nat.and_pow_two_sub_one_eq_mod _ 6
  have h2 : s.registers Y &&& 31 = s.registers Y % 32 :=
    Nat.and_pow_two_sub_one_eq_mod _ 5
  rw [h1, h2]

/-- C14 (DXYN pixel semantics with asymmetric clipping): with I + N inside
    memory, x = VX mod 64 and y = VY mod 32, DXYN succeeds; every pixel
    (r, c) with y <= r < y + N, r < 32, x <= c < x + 8, c < 64 becomes its old
    value XOR bit 7 - (c - x) of memory[I + (r - y)], and every other pixel
    keeps its value. -/
theorem c14_draw_pixels (s : Machine) (X Y N : Nat) (hX : X < 16) (hY : Y < 16)
    (hN : N < 16) (h : next_instruction s 0xD X Y N)
    (hI : s.index_register + N ≤ 4096) :
    ∃ s', process_instruction s = .ok s' ∧
      ∀ r c, s'.display r c =
        if s.registers Y % 32 ≤ r ∧ r < s.registers Y % 32 + N ∧ r < 32 ∧
            s.registers X % 64 ≤ c ∧ c < s.registers X % 64 + 8 ∧ c < 64
        then xor (s.display r c)
          ((s.memory (s.index_register + (r - s.registers Y % 32))).testBit
            (7 - (c - s.registers X % 64)))
        else s.display r c := by
  rw [dxyn_step s X Y N hX hY hN h]
  obtain ⟨s', e, _, d, _, _, _⟩ :=
    draw_sprite_spec { s with program_counter := s.program_counter + 2 }
      (s.registers X % 64) (s.registers Y % 32) N hI
  refine ⟨s', e, ?_⟩
  intro r c
  rw [d, sprite_bit_eq]
  by_cases hin : in_sprite (s.registers X % 64) (s.registers Y % 32) 0 N r c
  · rw [if_pos hin, if_pos ((in_sprite_iff _ _ _ _ _).1 hin)]
  · rw [if_neg hin, if_neg (fun hc => hin ((in_sprite_iff _ _ _ _ _).2 hc))]

theorem c14_draw_pixels_witness :
    next_instruction draw_state 0xD 1 2 5 ∧ draw_state.index_register + 5 ≤ 4096 ∧
    ∃ s', process_instruction draw_state = .ok s' ∧
      s'.display 30 60 = false ∧ s'.display 30 63 = true ∧ s'.display 31 61 = false ∧
      s'.display 3 3 = true ∧ s'.display 30 0 = false ∧ s'.display 0 60 = false := by
  obtain ⟨s', e, d⟩ := c14_draw_pixels draw_state 1 2 5 (by decide) (by decide) (by decide)
    (by decide) (by decide)
  refine ⟨by decide, by decide, s', e, ?_, ?_, ?_, ?_, ?_, ?_⟩ <;> rw [d] <;> decide

/-- C15 (DXYN collision flag): with I + N inside memory, x = VX mod 64 and
    y = VY mod 32, after DXYN the register VF is 1 exactly when some sprite
    bit equal to 1 inside the unclipped part of the sprite lies on a pixel
    that was set before the draw, and 0 otherwise, whatever VF held before. -/
theorem c15_collision_flag (s : Machine) (X Y N : Nat) (hX : X < 16) (hY : Y < 16)
    (hN : N < 16) (h : next_instruction s 0xD X Y N)
    (hI : s.index_register + N ≤ 4096) :
    ∃ s', process_instruction s = .ok s' ∧
      (s'.registers 0xF = 1 ↔
        ∃ r c, (s.registers Y % 32 ≤ r ∧ r < s.registers Y % 32 + N ∧ r < 32 ∧
            s.registers X % 64 ≤ c ∧ c < s.registers X % 64 + 8 ∧ c < 64) ∧
          (s.memory (s.index_register + (r - s.registers Y % 32))).testBit
            (7 - (c - s.registers X % 64)) = true ∧
          s.display r c = true) ∧
      (s'.registers 0xF ≠ 1 → s'.registers 0xF = 0) := by
  rw [dxyn_step s X Y N hX hY hN h]
  obtain ⟨s', e, _, _, _, v1, v0⟩ :=
    draw_sprite_spec { s with program_counter := s.program_counter + 2 }
      (s.registers X % 64) (s.registers Y % 32) N hI
  have hiff : (∃ r c, in_sprite (s.registers X % 64) (s.registers Y % 32) 0 N r c ∧
        sprite_bit { s with program_counter := s.program_counter + 2 }
          (s.registers X % 64) (s.registers Y % 32) r c = true ∧
        s.display r c = true) ↔
      ∃ r c, (s.registers Y % 32 ≤ r ∧ r < s.registers Y % 32 + N ∧ r < 32 ∧
          s.registers X % 64 ≤ c ∧ c < s.registers X % 64 + 8 ∧ c < 64) ∧
        (s.memory (s.index_register + (r - s.registers Y % 32))).testBit
          (7 - (c - s.registers X % 64)) = true ∧
        s.display r c = true := by
    constructor
    · rintro ⟨r, c, h1, h2, h3⟩
      exact ⟨r, c, (in_sprite_iff _ _ _ _ _).1 h1, by rw [sprite_bit_eq] at h2; exact h2, h3⟩
    · rintro ⟨r, c, h1, h2, h3⟩
      exact ⟨r, c, (in_sprite_iff _ _ _ _ _).2 h1, by rw [sprite_bit_eq]; exact h2, h3⟩
  refine ⟨s', e, ?_, ?_⟩
  · rw [← hiff]
    constructor
    · intro hv
      by_contra hno
      rw [v0 hno] at hv
      cases hv
    · exact v1
  · intro hne
    by_cases hit : ∃ r c, in_sprite (s.registers X % 64) (s.registers Y % 32) 0 N r c ∧
        sprite_bit { s with program_counter := s.program_counter + 2 }
          (s.registers X % 64) (s.registers Y % 32) r c = true ∧
        s.display r c = true
    · exact absurd (v1 hit) hne
    · exact v0 hit

theorem c15_collision_flag_witness :
    next_instruction draw_state 0xD 1 2 5 ∧ draw_state.index_register + 5 ≤ 4096 ∧
    ∃ s', process_instruction draw_state = .ok s' ∧ s'.registers 0xF = 1 := by
  obtain ⟨s', e, hv, _⟩ := c15_collision_flag draw_state 1 2 5 (by decide) (by decide)
    (by decide) (by decide) (by decide)
  exact ⟨by decide, by decide, s', e, hv.2 ⟨30, 60, by decide, by decide, by decide⟩⟩

/-! ## FX55 and FX65 -/

theorem store_memory_modern (k : Nat) : ∀ (i : Nat) (s : Machine),
    s.modern_flag = true → s.index_register + i + k ≤ MEMORY_SIZE →
    ∃ s', store_memory i k s = .ok s' ∧ s' = { s with memory := s'.memory } ∧
      ∀ a, s'.memory a =
        if s.index_register + i ≤ a ∧ a < s.index_register + i + k
        then s.registers (a - s.index_register) else s.memory a := by
  induction k with
  | zero =>
    intro i s _ _
    refine ⟨s, rfl, rfl, ?_⟩
    intro a
    rw [if_neg (by omega)]
  | succ k ih =>
    intro i s hm hI
    have hlt : s.index_register + i < MEMORY_SIZE := by omega
    simp only [store_memory]
    rw [if_pos hm, if_pos hlt]
    obtain ⟨s', e, f, d⟩ := ih (i + 1)
      { s with memory := Function.update s.memory (s.index_register + i) (s.registers i) }
      hm (by simp only; omega)
    refine ⟨s', e, by rw [f], ?_⟩
    intro a
    rw [d]
    simp only
    by_cases ha : a = s.index_register + i
    · subst ha
      rw [if_neg (by omega), if_pos (by omega), Function.update_same, Nat.add_sub_cancel_left]
    · rw [Function.update_noteq ha]
      by_cases hc : s.index_register + (i + 1) ≤ a ∧ a < s.index_register + (i + 1) + k
      · rw [if_pos hc, if_pos (by omega)]
      · rw [if_neg hc, if_neg (by omega)]

theorem store_memory_legacy (k : Nat) : ∀ (i : Nat) (s : Machine),
    s.modern_flag = false → s.index_register + k ≤ MEMORY_SIZE →
    ∃ s', store_memory i k s = .ok s' ∧
      s' = { s with memory := s'.memory, index_register := s'.index_register } ∧
      s'.index_register = s.index_register + k ∧
      ∀ a, s'.memory a =
        if s.index_register ≤ a ∧ a < s.index_register + k
        then s.registers (i + (a - s.index_register)) else s.memory a := by
  induction k with
  | zero =>
    intro i s _ _
    refine ⟨s, rfl, rfl, rfl, ?_⟩
    intro a
    rw [if_neg (by omega)]
  | succ k ih =>
    intro i s hm hI
    have hlt : s.index_register < MEMORY_SIZE := by omega
    have hmt : ¬ s.modern_flag = true := by rw [hm]; decide
    have hmod : (s.index_register + 1) % 65536 = s.index_register + 1 := by
      simp only [MEMORY_SIZE] at hI; omega
    simp only [store_memory]
    rw [if_neg hmt, if_pos hlt, hmod]
    obtain ⟨s', e, f, x, d⟩ := ih (i + 1)
      { s with memory := Function.update s.memory s.index_register (s.registers i),
               index_register := s.index_register + 1 }
      hm (by simp only; omega)
    refine ⟨s', e, by rw [f], by rw [x]; simp only; omega, ?_⟩
    intro a
    rw [d]
    simp only
    by_cases ha : a = s.index_register
    · subst ha
      rw [if_neg (by omega), if_pos (by omega), Function.update_same, Nat.sub_self]
      rfl
    · rw [Function.update_noteq ha]
      by_cases hc : s.index_register + 1 ≤ a ∧ a < s.index_register + 1 + k
      · rw [if_pos hc, if_pos (by omega)]
        congr 1
        omega
      · rw [if_neg hc, if_neg (by omega)]

theorem load_memory_modern (k : Nat) : ∀ (i : Nat) (s : Machine),
    s.modern_flag = true → s.index_register + i + k ≤ MEMORY_SIZE →
    ∃ s', load_memory i k s = .ok s' ∧ s' = { s with registers := s'.registers } ∧
      ∀ j, s'.registers j =
        if i ≤ j ∧ j < i + k then s.memory (s.index_register + j) else s.registers j := by
  induction k with
  | zero =>
    intro i s _ _
    refine ⟨s, rfl, rfl, ?_⟩
    intro j
    rw [if_neg (by omega)]
  | succ k ih =>
    intro i s hm hI
    have hlt : s.index_register + i < MEMORY_SIZE := by omega
    simp only [load_memory]
    rw [if_pos hm, if_pos hlt]
    obtain ⟨s', e, f, d⟩ := ih (i + 1)
      { s with registers :=
          Function.update s.registers i (s.memory (s.index_register + i)) }
      hm (by simp only; omega)
    refine ⟨s', e, by rw [f], ?_⟩
    intro j
    rw [d]
    simp only
    by_cases hj : j = i
    · subst hj
      rw [if_neg (by omega), if_pos (by omega), Function.update_same]
    · rw [Function.update_noteq hj]
      by_cases hc : i + 1 ≤ j ∧ j < i + 1 + k
      · rw [if_pos hc, if_pos (by omega)]
      · rw [if_neg hc, if_neg (by omega)]

theorem load_memory_legacy (k : Nat) : ∀ (i : Nat) (s : Machine),
    s.modern_flag = false → s.index_register + k ≤ MEMORY_SIZE →
    ∃ s', load_memory i k s = .ok s' ∧
      s' = { s with registers := s'.registers, index_register := s'.index_register } ∧
      s'.index_register = s.index_register + k ∧
      ∀ j, s'.registers j =
        if i ≤ j ∧ j < i + k then s.memory (s.index_register + (j - i))
        else s.registers j := by
  induction k with
  | zero =>
    intro i s _ _
    refine ⟨s, rfl, rfl, rfl, ?_⟩
    intro j
    rw [if_neg (by omega)]
  | succ k ih =>
    intro i s hm hI
    have hlt : s.index_register < MEMORY_SIZE := by omega
    have hmt : ¬ s.modern_flag = true := by rw [hm]; decide
    have hmod : (s.index_register + 1) % 65536 = s.index_register + 1 := by
      simp only [MEMORY_SIZE] at hI; omega
    simp only [load_memory]
    rw [if_neg hmt, if_pos hlt, hmod]
    obtain ⟨s', e, f, x, d⟩ := ih (i + 1)
      { s with registers := Function.update s.registers i (s.memory s.index_register),
               index_register := s.index_register + 1 }
      hm (by simp only; omega)
    refine ⟨s', e, by rw [f], by rw [x]; simp only; omega, ?_⟩
    intro j
    rw [d]
    simp only
    by_cases hj : j = i
    · subst hj
      rw [if_neg (by omega), if_pos (by omega), Function.update_same, Nat.sub_self]
      rfl
    · rw [Function.update_noteq hj]
      by_cases hc : i + 1 ≤ j ∧ j < i + 1 + k
      · rw [if_pos hc, if_pos (by omega)]
        congr 1
        omega
      · rw [if_neg hc, if_neg (by omega)]

/-- The step FX55 with I + X inside memory. -/
theorem fx55_step (s : Machine) (X : Nat) (hX : X < 16)
    (h : next_instruction s 0xF X 5 5) (hI : s.index_register + X ≤ 4095) :
    ∃ s', process_instruction s = .ok s' ∧
      s' = { s with program_counter := s.program_counter + 2, memory := s'.memory,
                    index_register := s'.index_register } ∧
      (∀ a, s'.memory a =
        if s.index_register ≤ a ∧ a < s.index_register + (X + 1)
        then s.registers (a - s.index_register) else s.memory a) ∧
      s'.index_register =
        (if s.modern_flag = true then s.index_register else s.index_register + X + 1) := by
  rw [process_instruction_decode s 0xF X 5 5 hX (by norm_num) (by norm_num) h]
  have e : execute { s with program_counter := s.program_counter + 2 } (16 * 5 + 5)
      15 X 5 5 (256 * X + (16 * 5 + 5)) =
      store_memory 0 (X + 1) { s with program_counter := s.program_counter + 2 } := by
    unfold execute case_0xF
    rfl
  rw [e]
  by_cases hm : s.modern_flag = true
  · obtain ⟨s', e', f, d⟩ := store_memory_modern (X + 1) 0
      { s with program_counter := s.program_counter + 2 } hm
      (by simp only [MEMORY_SIZE]; omega)
    refine ⟨s', e', by rw [f], ?_, by rw [if_pos hm, f]⟩
    intro a
    rw [d]
    simp only [Nat.add_zero]
  · have hm2 : s.modern_flag = false := by simpa using hm
    obtain ⟨s', e', f, x, d⟩ := store_memory_legacy (X + 1) 0
      { s with program_counter := s.program_counter + 2 } hm2
      (by simp only [MEMORY_SIZE]; omega)
    refine ⟨s', e', by rw [f], ?_, by rw [if_neg hm, x]; simp only; omega⟩
    intro a
    rw [d]
    simp only [Nat.zero_add]

/-- The step FX65 with I + X inside memory. -/
theorem fx65_step (s : Machine) (X : Nat) (hX : X < 16)
    (h : next_instruction s 0xF X 6 5) (hI : s.index_register + X ≤ 4095) :
    ∃ s', process_instruction s = .ok s' ∧
      s' = { s with program_counter := s.program_counter + 2, registers := s'.registers,
                    index_register := s'.index_register } ∧
      (∀ j, s'.registers j =
        if j ≤ X then s.memory (s.index_register + j) else s.registers j) ∧
      s'.index_register =
        (if s.modern_flag = true then s.index_register else s.index_register + X + 1) := by
  rw [process_instruction_decode s 0xF X 6 5 hX (by norm_num) (by norm_num) h]
  have e : execute { s with program_counter := s.program_counter + 2 } (16 * 6 + 5)
      15 X 6 5 (256 * X + (16 * 6 + 5)) =
      load_memory 0 (X + 1) { s with program_counter := s.program_counter + 2 } := by
    unfold execute case_0xF
    rfl
  rw [e]
  by_cases hm : s.modern_flag = true
  · obtain ⟨s', e', f, d⟩ := load_memory_modern (X + 1) 0
      { s with program_counter := s.program_counter + 2 } hm
      (by simp only [MEMORY_SIZE]; omega)
    refine ⟨s', e', by rw [f], ?_, by rw [if_pos hm, f]⟩
    intro j
    rw [d]
    by_cases hj : j ≤ X
    · rw [if_pos hj, if_pos (by omega)]
    · rw [if_neg hj, if_neg (by omega)]
  · have hm2 : s.modern_flag = false := by simpa using hm
    obtain ⟨s', e', f, x, d⟩ := load_memory_legacy (X + 1) 0
      { s with program_counter := s.program_counter + 2 } hm2
      (by simp only [MEMORY_SIZE]; omega)
    refine ⟨s', e', by rw [f], ?_, by rw [if_neg hm, x]; simp only; omega⟩
    intro j
    rw [d]
    by_cases hj : j ≤ X
    · rw [if_pos hj, if_pos (by omega)]
      rfl
    · rw [if_neg hj, if_neg (by omega)]

/-- C16 (FX55 in both modes): with I + X inside memory, FX55 succeeds, writes
    memory[I0 + i] = Vi for i in 0..X, leaves every other memory byte and
    every register unchanged; the index register ends at I0 in modern mode and
    at I0 + X + 1 in legacy mode; the step in the other mode writes the same
    memory and leaves the same registers. -/
theorem c16_store_registers (s : Machine) (X : Nat) (hX : X < 16)
    (h : next_instruction s 0xF X 5 5) (hI : s.index_register + X ≤ 4095) :
    ∃ s', process_instruction s = .ok s' ∧
      (∀ i, i ≤ X → s'.memory (s.index_register + i) = s.registers i) ∧
      (∀ a, ¬ (s.index_register ≤ a ∧ a ≤ s.index_register + X) →
        s'.memory a = s.memory a) ∧
      s'.registers = s.registers ∧
      (s.modern_flag = true → s'.index_register = s.index_register) ∧
      (s.modern_flag = false → s'.index_register = s.index_register + X + 1) ∧
      ∃ t', process_instruction { s with modern_flag := !s.modern_flag } = .ok t' ∧
        t'.memory = s'.memory ∧ t'.registers = s'.registers := by
  obtain ⟨s', e, f, d, x⟩ := fx55_step s X hX h hI
  obtain ⟨t', et, ft, dt, _⟩ := fx55_step { s with modern_flag := !s.modern_flag } X hX h hI
  refine ⟨s', e, ?_, ?_, by rw [f], ?_, ?_, t', et, ?_, by rw [ft, f]⟩
  · intro i hi
    rw [d, if_pos (by omega), Nat.add_sub_cancel_left]
  · intro a ha
    rw [d, if_neg (by omega)]
  · intro hm; rw [x, if_pos hm]
  · intro hm
    have hmt : ¬ s.modern_flag = true := by rw [hm]; decide
    rw [x, if_neg hmt]
  · funext a
    rw [dt, d]

theorem c16_store_registers_witness :
    next_instruction store_state 0xF 2 5 5 ∧ store_state.index_register + 2 ≤ 4095 ∧
    ∃ s', process_instruction store_state = .ok s' ∧
      (∀ i, i ≤ 2 → s'.memory (store_state.index_register + i) = store_state.registers i) ∧
      s'.registers = store_state.registers ∧
      (store_state.modern_flag = true → s'.index_register = store_state.index_register) := by
  obtain ⟨s', e, hm, _, hr, hx, _⟩ :=
    c16_store_registers store_state 2 (by decide) (by decide) (by decide)
  exact ⟨by decide, by decide, s', e, hm, hr, hx⟩

/-- C17 (FX65 is the inverse of FX55): with I + X inside memory, FX55
    succeeds; and for every state t that has the memory FX55 left, the index
    register and mode that FX55 started with, any register values, and FX65
    with the same X as its next instruction, FX65 succeeds, restores V0..VX
    to their values before the FX55, leaves the registers above X and the
    memory as t has them, and leaves I unchanged in modern mode and advanced
    by X + 1 in legacy mode. -/
theorem c17_load_inverts_store (s : Machine) (X : Nat) (hX : X < 16)
    (h : next_instruction s 0xF X 5 5) (hI : s.index_register + X ≤ 4095) :
    (∃ s1, process_instruction s = .ok s1) ∧
    ∀ s1 t : Machine, process_instruction s = .ok s1 →
      next_instruction t 0xF X 6 5 → t.memory = s1.memory →
      t.index_register = s.index_register → t.modern_flag = s.modern_flag →
      ∃ t1, process_instruction t = .ok t1 ∧
        (∀ i, i ≤ X → t1.registers i = s.registers i) ∧
        (∀ i, X < i → t1.registers i = t.registers i) ∧
        t1.memory = t.memory ∧
        (s.modern_flag = true → t1.index_register = s.index_register) ∧
        (s.modern_flag = false → t1.index_register = s.index_register + X + 1) := by
  obtain ⟨s', e, _, d, _⟩ := fx55_step s X hX h hI
  refine ⟨⟨s', e⟩, ?_⟩
  intro s1 t e1 ht hmem hidx hmode
  have hs1 : s1 = s' := by
    rw [e] at e1
    cases e1
    rfl
  subst hs1
  obtain ⟨t1, et, ft, dt, xt⟩ := fx65_step t X hX ht (by rw [hidx]; exact hI)
  refine ⟨t1, et, ?_, ?_, by rw [ft], ?_, ?_⟩
  · intro i hi
    rw [dt, if_pos hi, hmem, hidx, d, if_pos (by omega), Nat.add_sub_cancel_left]
  · intro i hi
    rw [dt, if_neg (by omega)]
  · intro hm
    rw [xt, hmode, if_pos hm, hidx]
  · intro hm
    have hmt : ¬ s.modern_flag = true := by rw [hm]; decide
    rw [xt, hmode, if_neg hmt, hidx]

theorem c17_load_inverts_store_witness :
    next_instruction store_state 0xF 2 5 5 ∧ store_state.index_register + 2 ≤ 4095 ∧
    process_instruction store_state = .ok stored_state ∧
    next_instruction overwritten_state 0xF 2 6 5 ∧
    ∃ t1, process_instruction overwritten_state = .ok t1 ∧
      (∀ i, i ≤ 2 → t1.registers i = store_state.registers i) ∧
      (∀ i, 2 < i → t1.registers i = 99) ∧
      t1.memory = overwritten_state.memory ∧
      (store_state.modern_flag = true → t1.index_register = store_state.index_register) := by
  obtain ⟨t1, e, h1, h2, h3, h4, _⟩ :=
    (c17_load_inverts_store store_state 2 (by decide) (by decide) (by decide)).2
      stored_state overwritten_state rfl (by decide) rfl rfl rfl
  exact ⟨by decide, by decide, rfl, by decide, t1, e, h1, h2, h3, h4⟩

/-- C18 (reset post-state): for every prior state and every image of at most
    3584 bytes, reset succeeds and leaves the font at 0..79, the image at
    512..., every other memory byte 0, the 16 registers 0, I = 0, PC = 512,
    the stack empty, both timers 0, every pixel off and every key flag
    false. -/
theorem c18_reset_post_state (s : Machine) (image : List Nat)
    (hlen : image.length ≤ 3584) :
    ∃ s0, reset s image = .ok s0 ∧
      (∀ i, i < 80 → s0.memory i = FONT.getD i 0) ∧
      (∀ i, i < image.length → s0.memory (512 + i) = image.getD i 0) ∧
      (∀ a, a < 4096 → 80 ≤ a → ¬ (512 ≤ a ∧ a < 512 + image.length) → s0.memory a = 0) ∧
      (∀ i, i < 16 → s0.registers i = 0) ∧
      s0.index_register = 0 ∧ s0.program_counter = 512 ∧ s0.top_of_stack = 0 ∧
      s0.delay_timer = 0 ∧ s0.sound_timer = 0 ∧
      (∀ r c, r < 32 → c < 64 → s0.display r c = false) ∧
      (∀ i, i < 16 → s0.keypad_state i = false) := by
  obtain ⟨s0, e, hpc, hidx, hfont, himg, hzero, hreg, htop, hd, hs, hdisp, hkey, _⟩ :=
    reset_spec s image hlen
  exact ⟨s0, e, hfont, himg, fun a h1 h2 h3 => hzero a h2 h1 h3, hreg, hidx, hpc, htop,
    hd, hs, hdisp, hkey⟩

theorem c18_reset_post_state_witness :
    glyph_program.length ≤ 3584 ∧
    ∃ s0, reset draw_state glyph_program = .ok s0 ∧
      (∀ i, i < 80 → s0.memory i = FONT.getD i 0) ∧
      (∀ i, i < glyph_program.length → s0.memory (512 + i) = glyph_program.getD i 0) ∧
      (∀ a, a < 4096 → 80 ≤ a → ¬ (512 ≤ a ∧ a < 512 + glyph_program.length) →
        s0.memory a = 0) ∧
      (∀ i, i < 16 → s0.registers i = 0) ∧
      s0.index_register = 0 ∧ s0.program_counter = 512 ∧ s0.top_of_stack = 0 ∧
      s0.delay_timer = 0 ∧ s0.sound_timer = 0 ∧
      (∀ r c, r < 32 → c < 64 → s0.display r c = false) ∧
      (∀ i, i < 16 → s0.keypad_state i = false) :=
  ⟨by decide, c18_reset_post_state draw_state glyph_program (by decide)⟩

/-! ## Clock scheduler -/

/-- For a whole number of milliseconds the two interval tests are the tests
    against 17 ms and 2 ms. -/
theorem interval_thresholds (d : Nat) :
    (((d : ℚ) ≥ TIMER_INTERVAL) ↔ d ≥ 17) ∧ (((d : ℚ) ≥ PROCESSING_INTERVAL) ↔ d ≥ 2) := by
  unfold TIMER_INTERVAL PROCESSING_INTERVAL
  refine ⟨⟨?_, ?_⟩, ⟨?_, ?_⟩⟩
  · intro h
    by_contra hc
    have h16 : (d : ℚ) ≤ 16 := by exact_mod_cast (by omega : d ≤ 16)
    norm_num at h
    linarith
  · intro h
    have h17 : (17 : ℚ) ≤ d := by exact_mod_cast h
    norm_num
    linarith
  · intro h
    by_contra hc
    have h1 : (d : ℚ) ≤ 1 := by exact_mod_cast (by omega : d ≤ 1)
    norm_num at h
    linarith
  · intro h
    have h2 : (2 : ℚ) ≤ d := by exact_mod_cast h
    norm_num
    linarith

/-- C19 (scheduler iteration): in one pass of the loop body, an instruction
    is executed, exactly once and on the machine as the pass found it, when
    the instruction interval has elapsed and (`paused` is false or `step` is
    true), and `step` is false afterwards; otherwise no instruction is
    executed and `step` keeps its value.  After that, when the timer interval
    has elapsed both timers are decremented with floor 0, whatever `paused`
    is, and otherwise the machine is left as the instruction part left it. -/
theorem c19_scheduler_iteration (now : Nat) (st : Scheduler) :
    (((ticks_since now st.last_processor : ℚ) ≥ 1000 / 700 ∧
        (st.paused = false ∨ st.step = true)) →
      (∀ e, process_instruction st.machine = .error e → run_iteration now st = .error e) ∧
      ∀ m1, process_instruction st.machine = .ok m1 →
        ∃ st', run_iteration now st = .ok st' ∧ st'.step = false ∧
          st'.paused = st.paused ∧
          ((ticks_since now st.last_display : ℚ) ≥ 1000 / 60 →
            st'.machine = timer_tick m1 ∧
            st'.machine.delay_timer = (if m1.delay_timer > 0 then m1.delay_timer - 1 else 0) ∧
            st'.machine.sound_timer = (if m1.sound_timer > 0 then m1.sound_timer - 1 else 0)) ∧
          (¬ (ticks_since now st.last_display : ℚ) ≥ 1000 / 60 → st'.machine = m1)) ∧
    (¬ ((ticks_since now st.last_processor : ℚ) ≥ 1000 / 700 ∧
        (st.paused = false ∨ st.step = true)) →
      ∃ st', run_iteration now st = .ok st' ∧ st'.step = st.step ∧
        st'.paused = st.paused ∧
        ((ticks_since now st.last_display : ℚ) ≥ 1000 / 60 →
          st'.machine = timer_tick st.machine ∧
          st'.machine.delay_timer =
            (if st.machine.delay_timer > 0 then st.machine.delay_timer - 1 else 0) ∧
          st'.machine.sound_timer =
            (if st.machine.sound_timer > 0 then st.machine.sound_timer - 1 else 0)) ∧
        (¬ (ticks_since now st.last_display : ℚ) ≥ 1000 / 60 →
          st'.machine = st.machine)) := by
  have htick : ∀ m : Machine,
      (timer_tick m).delay_timer = (if m.delay_timer > 0 then m.delay_timer - 1 else 0) ∧
      (timer_tick m).sound_timer = (if m.sound_timer > 0 then m.sound_timer - 1 else 0) := by
    intro m
    rw [timer_tick_delay, timer_tick_sound]
    constructor <;> split <;> omega
  have hP : PROCESSING_INTERVAL = 1000 / 700 := rfl
  have hT : TIMER_INTERVAL = 1000 / 60 := rfl
  constructor
  · rintro ⟨hp, hrun⟩
    have hp' : (ticks_since now st.last_processor : ℚ) ≥ PROCESSING_INTERVAL := hp
    constructor
    · intro e he
      simp only [run_iteration, if_pos hp', if_pos hrun, he]
    · intro m1 he
      by_cases ht : (ticks_since now st.last_display : ℚ) ≥ 1000 / 60
      · have ht' : (ticks_since now st.last_display : ℚ) ≥ TIMER_INTERVAL := ht
        refine ⟨{ st with last_processor := now, machine := timer_tick m1, step := false,
                          last_display := now }, ?_, rfl, rfl, fun _ => ⟨rfl, htick m1⟩,
          fun hn => absurd ht hn⟩
        simp only [run_iteration, if_pos hp', if_pos hrun, he, if_pos ht']
      · have ht' : ¬ (ticks_since now st.last_display : ℚ) ≥ TIMER_INTERVAL := ht
        refine ⟨{ st with last_processor := now, machine := m1, step := false }, ?_, rfl, rfl,
          fun hy => absurd hy ht, fun _ => rfl⟩
        simp only [run_iteration, if_pos hp', if_pos hrun, he, if_neg ht']
  · intro hno
    have hskip : (if (ticks_since now st.last_processor : ℚ) ≥ PROCESSING_INTERVAL then
          (if st.paused = false ∨ st.step = true then
            (match process_instruction st.machine with
              | .error e => (.error e : Except Fault Scheduler)
              | .ok m => .ok { st with last_processor := now, machine := m, step := false })
          else .ok { st with last_processor := now })
        else .ok st) =
        .ok { st with last_processor :=
          if (ticks_since now st.last_processor : ℚ) ≥ PROCESSING_INTERVAL
          then now else st.last_processor } := by
      by_cases hp : (ticks_since now st.last_processor : ℚ) ≥ PROCESSING_INTERVAL
      · have hrun : ¬ (st.paused = false ∨ st.step = true) := fun h => hno ⟨hp, h⟩
        rw [if_pos hp, if_neg hrun, if_pos hp]
      · rw [if_neg hp, if_neg hp]
    by_cases ht : (ticks_since now st.last_display : ℚ) ≥ 1000 / 60
    · have ht' : (ticks_since now st.last_display : ℚ) ≥ TIMER_INTERVAL := ht
      refine ⟨{ st with
          last_processor :=
            if (ticks_since now st.last_processor : ℚ) ≥ PROCESSING_INTERVAL
            then now else st.last_processor,
          last_display := now, machine := timer_tick st.machine }, ?_, rfl, rfl,
        fun _ => ⟨rfl, htick st.machine⟩, fun hn => absurd ht hn⟩
      simp only [run_iteration, hskip, if_pos ht']
    · have ht' : ¬ (ticks_since now st.last_display : ℚ) ≥ TIMER_INTERVAL := ht
      refine ⟨{ st with
          last_processor :=
            if (ticks_since now st.last_processor : ℚ) ≥ PROCESSING_INTERVAL
            then now else st.last_processor }, ?_, rfl, rfl,
        fun hy => absurd hy ht, fun _ => rfl⟩
      simp only [run_iteration, hskip, if_neg ht']

theorem c19_scheduler_iteration_witness :
    ((ticks_since 1017 scheduler_state.last_processor : ℚ) ≥ 1000 / 700 ∧
      (scheduler_state.paused = false ∨ scheduler_state.step = true)) ∧
    (ticks_since 1017 scheduler_state.last_display : ℚ) ≥ 1000 / 60 ∧
    ∃ m1, process_instruction scheduler_state.machine = .ok m1 ∧
      ∃ st', run_iteration 1017 scheduler_state = .ok st' ∧ st'.step = false ∧
        st'.paused = true ∧ st'.machine = timer_tick m1 ∧ st'.machine.delay_timer = 4 := by
  have hd : ticks_since 1017 1000 = 17 := by decide
  have hp : (ticks_since 1017 scheduler_state.last_processor : ℚ) ≥ 1000 / 700 ∧
      (scheduler_state.paused = false ∨ scheduler_state.step = true) := by
    refine ⟨?_, Or.inr rfl⟩
    show ((ticks_since 1017 1000 : Nat) : ℚ) ≥ 1000 / 700
    rw [hd]; norm_num
  have ht : (ticks_since 1017 scheduler_state.last_display : ℚ) ≥ 1000 / 60 := by
    show ((ticks_since 1017 1000 : Nat) : ℚ) ≥ 1000 / 60
    rw [hd]; norm_num
  obtain ⟨st', e, h1, h2, h3, _⟩ :=
    ((c19_scheduler_iteration 1017 scheduler_state).1 hp).2 _ rfl
  refine ⟨hp, ht, _, rfl, st', e, h1, h2, (h3 ht).1, ?_⟩
  rw [(h3 ht).2.1]
  decide

/-! ## 2NNN and 00EE -/

/-- The step 2NNN with room on the stack. -/
theorem step_2nnn (s : Machine) (n2 n3 n4 : Nat) (h2 : n2 < 16) (h3 : n3 < 16)
    (h4 : n4 < 16) (h : next_instruction s 2 n2 n3 n4) (hd : s.top_of_stack < 16) :
    process_instruction s =
      .ok { s with program_counter := 256 * n2 + (16 * n3 + n4),
                   stack := Function.update s.stack s.top_of_stack (s.program_counter + 2),
                   top_of_stack := s.top_of_stack + 1 } := by
  rw [process_instruction_decode s 2 n2 n3 n4 h2 h3 h4 h]
  have e : execute { s with program_counter := s.program_counter + 2 } (16 * n3 + n4)
      2 n2 n3 n4 (256 * n2 + (16 * n3 + n4)) =
      (match push_stack { s with program_counter := s.program_counter + 2 }
          (s.program_counter + 2) with
        | .error e => .error e
        | .ok s1 => .ok { s1 with program_counter := 256 * n2 + (16 * n3 + n4) }) := by
    unfold execute
    rfl
  rw [e, push_stack_ok { s with program_counter := s.program_counter + 2 } _ hd]

/-- The step 00EE on a non-empty stack. -/
theorem step_00ee (s : Machine) (h : next_instruction s 0 0 0xE 0xE)
    (h0 : s.top_of_stack ≠ 0) (hd : s.top_of_stack ≤ 16) :
    process_instruction s =
      .ok { s with program_counter := s.stack (s.top_of_stack - 1),
                   top_of_stack := s.top_of_stack - 1 } := by
  rw [process_instruction_decode s 0 0 0xE 0xE (by norm_num) (by norm_num) (by norm_num) h]
  have e : execute { s with program_counter := s.program_counter + 2 } (16 * 14 + 14)
      0 0 14 14 (256 * 0 + (16 * 14 + 14)) =
      (match pop_stack { s with program_counter := s.program_counter + 2 } with
        | .error e => .error e
        | .ok (address, s1) => .ok { s1 with program_counter := address }) := by
    unfold execute case_0x0
    rfl
  rw [e, pop_stack_ok { s with program_counter := s.program_counter + 2 } h0 hd]

/-- C21 (call/return round trip): with fewer than 16 stack entries and 2NNN
    as the next instruction at address p, the step succeeds, stores the return
    address p + 2 on top of the stack, sets PC = NNN and changes nothing else;
    when 00EE is the instruction at NNN, the next step succeeds and leaves
    PC = p + 2, the stack depth and the entries below it as before the call,
    and registers, I, memory, timers and framebuffer as before the call. -/
theorem c21_call_return (s : Machine) (n2 n3 n4 : Nat) (h2 : n2 < 16) (h3 : n3 < 16)
    (h4 : n4 < 16) (h : next_instruction s 2 n2 n3 n4) (hd : s.top_of_stack < 16) :
    ∃ s1, process_instruction s = .ok s1 ∧
      s1.program_counter = 256 * n2 + 16 * n3 + n4 ∧
      s1.top_of_stack = s.top_of_stack + 1 ∧
      s1.stack s.top_of_stack = s.program_counter + 2 ∧
      (∀ i, i < s.top_of_stack → s1.stack i = s.stack i) ∧
      (s1.registers = s.registers ∧ s1.index_register = s.index_register ∧
        s1.memory = s.memory ∧ s1.delay_timer = s.delay_timer ∧
        s1.sound_timer = s.sound_timer ∧ s1.display = s.display) ∧
      (next_instruction s1 0 0 0xE 0xE →
        ∃ s2, process_instruction s1 = .ok s2 ∧
          s2.program_counter = s.program_counter + 2 ∧
          s2.top_of_stack = s.top_of_stack ∧
          (∀ i, i < s.top_of_stack → s2.stack i = s.stack i) ∧
          (s2.registers = s.registers ∧ s2.index_register = s.index_register ∧
            s2.memory = s.memory ∧ s2.delay_timer = s.delay_timer ∧
            s2.sound_timer = s.sound_timer ∧ s2.display = s.display)) := by
  have hbelow : ∀ i, i < s.top_of_stack →
      Function.update s.stack s.top_of_stack (s.program_counter + 2) i = s.stack i := by
    intro i hi
    rw [Function.update_noteq (by omega)]
  refine ⟨_, step_2nnn s n2 n3 n4 h2 h3 h4 h hd, by simp only; omega, rfl, ?_, hbelow,
    ⟨rfl, rfl, rfl, rfl, rfl, rfl⟩, ?_⟩
  · simp only [Function.update_same]
  · intro hret
    refine ⟨_, step_00ee _ hret (by simp only; omega) (by simp only; omega), ?_, ?_, hbelow,
      ⟨rfl, rfl, rfl, rfl, rfl, rfl⟩⟩
    · show Function.update s.stack s.top_of_stack (s.program_counter + 2)
          (s.top_of_stack + 1 - 1) = s.program_counter + 2
      rw [Nat.add_sub_cancel, Function.update_same]
    · show s.top_of_stack + 1 - 1 = s.top_of_stack
      rw [Nat.add_sub_cancel]

theorem c21_call_return_witness :
    next_instruction call_state 2 3 0 0 ∧ call_state.top_of_stack < 16 ∧
    ∃ s1, process_instruction call_state = .ok s1 ∧ s1.program_counter = 0x300 ∧
      s1.top_of_stack = 4 ∧ s1.stack 3 = 514 ∧
      ∃ s2, process_instruction s1 = .ok s2 ∧ s2.program_counter = 514 ∧
        s2.top_of_stack = 3 ∧ (∀ i, i < 3 → s2.stack i = call_state.stack i) ∧
        s2.registers = call_state.registers ∧ s2.memory = call_state.memory := by
  obtain ⟨s1, e1, hpc, htop, hst, _, ⟨_, _, hmem, _, _, _⟩, hret⟩ :=
    c21_call_return call_state 3 0 0 (by decide) (by decide) (by decide) (by decide)
      (by decide)
  have hnext : next_instruction s1 0 0 0xE 0xE := by
    refine ⟨?_, ?_, ?_⟩
    · rw [hpc]; decide
    · rw [hpc, hmem]; decide
    · rw [hpc, hmem]; decide
  obtain ⟨s2, e2, hpc2, htop2, hst2, ⟨hr2, _, hm2, _, _, _⟩⟩ := hret hnext
  exact ⟨by decide, by decide, s1, e1, hpc, htop, hst, s2, e2, hpc2, htop2, hst2, hr2, hm2⟩

/-! ## EX9E and EXA1 -/

/-- EX9E as the code executes it: with VX below 16 the step skips exactly
    when key VX is pressed and changes nothing else; with VX of 16 or more
    the index into `keypad_state` lies outside the array. -/
theorem ex9e_step (s : Machine) (X : Nat) (hX : X < 16)
    (h : next_instruction s 0xE X 9 0xE) :
    (s.registers X < 16 →
      process_instruction s = .ok { s with program_counter := s.program_counter +
        (if s.keypad_state (s.registers X) = true then 4 else 2) }) ∧
    (16 ≤ s.registers X → process_instruction s = .error .out_of_bounds) := by
  rw [process_instruction_decode s 0xE X 9 0xE hX (by norm_num) (by norm_num) h]
  have hmod : (s.program_counter + 2 + 2) % 65536 = s.program_counter + 4 := by
    have := h.1
    simp only [MEMORY_SIZE] at this
    omega
  have e : execute { s with program_counter := s.program_counter + 2 } (16 * 9 + 14)
      14 X 9 14 (256 * X + (16 * 9 + 14)) =
      case_0xE { s with program_counter := s.program_counter + 2 } (16 * 9 + 14) X := by
    unfold execute
    rfl
  rw [e]
  unfold case_0xE
  rw [if_pos (by norm_num : 16 * 9 + 14 = 0x9E)]
  constructor
  · intro hlt
    have hlt' : ({ s with program_counter := s.program_counter + 2 } : Machine).registers X
        < 16 := hlt
    rw [if_pos hlt']
    by_cases hk : s.keypad_state (s.registers X) = true
    · have hk' : ({ s with program_counter := s.program_counter + 2 } : Machine).keypad_state
          (({ s with program_counter := s.program_counter + 2 } : Machine).registers X)
          = true := hk
      rw [if_pos hk', if_pos hk]
      show Except.ok { s with program_counter := (s.program_counter + 2 + 2) % 65536 } = _
      rw [hmod]
    · have hk' : ¬ ({ s with program_counter := s.program_counter + 2 } : Machine).keypad_state
          (({ s with program_counter := s.program_counter + 2 } : Machine).registers X)
          = true := hk
      rw [if_neg hk', if_neg hk]
  · intro hge
    have hge' : ¬ ({ s with program_counter := s.program_counter + 2 } : Machine).registers X
        < 16 := by
      show ¬ s.registers X < 16
      omega
    rw [if_neg hge']

/-- EXA1 as the code executes it: with VX below 16 the step skips exactly
    when key VX is not pressed and changes nothing else; with VX of 16 or
    more the index into `keypad_state` lies outside the array. -/
theorem exa1_step (s : Machine) (X : Nat) (hX : X < 16)
    (h : next_instruction s 0xE X 0xA 1) :
    (s.registers X < 16 →
      process_instruction s = .ok { s with program_counter := s.program_counter +
        (if s.keypad_state (s.registers X) = true then 2 else 4) }) ∧
    (16 ≤ s.registers X → process_instruction s = .error .out_of_bounds) := by
  rw [process_instruction_decode s 0xE X 0xA 1 hX (by norm_num) (by norm_num) h]
  have hmod : (s.program_counter + 2 + 2) % 65536 = s.program_counter + 4 := by
    have := h.1
    simp only [MEMORY_SIZE] at this
    omega
  have e : execute { s with program_counter := s.program_counter + 2 } (16 * 10 + 1)
      14 X 10 1 (256 * X + (16 * 10 + 1)) =
      case_0xE { s with program_counter := s.program_counter + 2 } (16 * 10 + 1) X := by
    unfold execute
    rfl
  rw [e]
  unfold case_0xE
  rw [if_neg (by norm_num : ¬ 16 * 10 + 1 = 0x9E), if_pos (by norm_num : 16 * 10 + 1 = 0xA1)]
  constructor
  · intro hlt
    have hlt' : ({ s with program_counter := s.program_counter + 2 } : Machine).registers X
        < 16 := hlt
    rw [if_pos hlt']
    by_cases hk : s.keypad_state (s.registers X) = true
    · have hk' : ¬ ({ s with program_counter := s.program_counter + 2 } : Machine).keypad_state
          (({ s with program_counter := s.program_counter + 2 } : Machine).registers X)
          = false := by
        show ¬ s.keypad_state (s.registers X) = false
        rw [hk]; decide
      rw [if_neg hk', if_pos hk]
    · have hk' : ({ s with program_counter := s.program_counter + 2 } : Machine).keypad_state
          (({ s with program_counter := s.program_counter + 2 } : Machine).registers X)
          = false := by
        show s.keypad_state (s.registers X) = false
        simpa using hk
      rw [if_pos hk', if_neg hk]
      show Except.ok { s with program_counter := (s.program_counter + 2 + 2) % 65536 } = _
      rw [hmod]
  · intro hge
    have hge' : ¬ ({ s with program_counter := s.program_counter + 2 } : Machine).registers X
        < 16 := by
      show ¬ s.registers X < 16
      omega
    rw [if_neg hge']

theorem ex9e_step_example :
    process_instruction key_skip_state =
      .ok { key_skip_state with program_counter := key_skip_state.program_counter + 4 } :=
  (ex9e_step key_skip_state 3 (by decide) (by decide)).1 (by decide)

/-- C22 (keypad lookups stay in range): the code indexes `keypad_state[16]`
    with the whole byte VX; `E09E` with V0 = 16 and `E0A1` with V0 = 200 look
    up an entry outside the 16-entry array instead of a flag at an index in
    0x0..0xF, and the step ends in neither PC = p + 2 nor PC = p + 4. -/
theorem c22_keypad_index_unmasked :
    next_instruction key_index_state 0xE 0 9 0xE ∧ key_index_state.registers 0 = 16 ∧
    process_instruction key_index_state = .error .out_of_bounds ∧
    next_instruction key_index_a1_state 0xE 0 0xA 1 ∧
    key_index_a1_state.registers 0 = 200 ∧
    process_instruction key_index_a1_state = .error .out_of_bounds := by
  refine ⟨by decide, by decide, rfl, by decide, by decide, rfl⟩

end Chip8
